import Mathlib

/-!
Verification of the Luma CSV-to-VCF contact converter
(`csv-vcf-converter.py`).  The Python source is shallowly embedded:
strings are Lean `String`s, Python dicts (which preserve insertion
order) are association lists updated in place, and every function is a
computable Lean `def` translated clause by clause from the source.

Python-specific behaviours modelled here:
  * `str.strip()` removes the ASCII whitespace characters
    space, tab, newline, carriage return, vertical tab and form feed
    (the inputs handled by this program are ASCII);
  * `str.lower()` / `str.upper()` act on the ASCII letters;
  * `a in b` on strings is substring containment;
  * `sorted` compares strings by code point, lexicographically.
-/

namespace LumaVcf

/-! ### Python string primitives -/

/-- Whitespace stripped by Python `str.strip()` (ASCII fragment). -/
def isPySpace (c : Char) : Bool :=
  c == ' ' || c == '\t' || c == '\n' || c == '\r' ||
  c == (Char.ofNat 11) || c == (Char.ofNat 12)

/-- Strip leading and trailing Python whitespace from a character list. -/
def pstripL (l : List Char) : List Char :=
  ((l.dropWhile isPySpace).reverse.dropWhile isPySpace).reverse

/-- Python `str.strip()`. -/
def pstrip (s : String) : String := String.mk (pstripL s.data)

/-- Python `str.lower()` on one ASCII character. -/
def lowerC (c : Char) : Char :=
  if 65 ≤ c.toNat ∧ c.toNat ≤ 90 then Char.ofNat (c.toNat + 32) else c

/-- Python `str.upper()` on one ASCII character. -/
def upperC (c : Char) : Char :=
  if 97 ≤ c.toNat ∧ c.toNat ≤ 122 then Char.ofNat (c.toNat - 32) else c

/-- Python `str.lower()`. -/
def lowerS (s : String) : String := String.mk (s.data.map lowerC)

/-- Python `str.upper()`. -/
def upperS (s : String) : String := String.mk (s.data.map upperC)

/-- Does `pat` occur at the head of `l`? -/
def isPrefixL : List Char → List Char → Bool
  | [], _ => true
  | _ :: _, [] => false
  | a :: as, b :: bs => a == b && isPrefixL as bs

/-- Python `str.startswith`. -/
def startsWithS (pat s : String) : Bool := isPrefixL pat.data s.data

/-- Does `pat` occur anywhere inside `l`? -/
def isInfixL (pat : List Char) : List Char → Bool
  | [] => isPrefixL pat []
  | c :: cs => isPrefixL pat (c :: cs) || isInfixL pat cs

/-- Python substring test: `pat in s`. -/
def inStr (pat s : String) : Bool := isInfixL pat.data s.data

/-- Python `str.endswith`. -/
def endsWithS (pat s : String) : Bool :=
  isPrefixL pat.data.reverse s.data.reverse

/-- Python `a.split(c)` for a single-character separator:
splits at every occurrence, keeping empty chunks. -/
def splitCh (sep : Char) : List Char → List (List Char)
  | [] => [[]]
  | c :: cs =>
    if c = sep then [] :: splitCh sep cs
    else
      match splitCh sep cs with
      | h :: t => (c :: h) :: t
      | [] => [[c]]

/-- Python `s.split(c)` on strings, single-character separator. -/
def splitChS (sep : Char) (s : String) : List String :=
  (splitCh sep s.data).map String.mk

/-- Python `a.split(sep)` for a non-empty separator, fuelled so that the
recursion is structural; `fuel ≥ length` makes the fuel inexhaustible. -/
def splitSepFuel (sep : List Char) : Nat → List Char → List (List Char)
  | _, [] => [[]]
  | 0, l => [l]
  | f + 1, c :: cs =>
    if sep ≠ [] ∧ isPrefixL sep (c :: cs) then
      [] :: splitSepFuel sep f ((c :: cs).drop sep.length)
    else
      match splitSepFuel sep f cs with
      | h :: t => (c :: h) :: t
      | [] => [[c]]

/-- Python `s.split(sep)` on strings (non-empty separator). -/
def splitS (sep : String) (s : String) : List String :=
  (splitSepFuel sep.data s.data.length s.data).map String.mk

/-- Text before the first `c` (Python `s.split(c, 1)[0]`). -/
def beforeCh (c : Char) (s : String) : String :=
  String.mk (s.data.takeWhile (· ≠ c))

/-- Text after the first `c`, empty if `c` does not occur
(`s.split(c, 1)[1]` when it exists). -/
def afterCh (c : Char) (s : String) : String :=
  String.mk ((s.data.dropWhile (· ≠ c)).drop 1)

/-- Join strings with a separator (Python `sep.join`). -/
def joinSep (sep : String) : List String → String
  | [] => ""
  | [x] => x
  | x :: y :: t => x ++ sep ++ joinSep sep (y :: t)

/-- Code-point comparison of characters as Python compares them. -/
def lexLt : List Char → List Char → Bool
  | [], [] => false
  | [], _ :: _ => true
  | _ :: _, [] => false
  | a :: as, b :: bs =>
    if a.toNat < b.toNat then true
    else if b.toNat < a.toNat then false
    else lexLt as bs

/-- Python string `<`. -/
def strLt (a b : String) : Bool := lexLt a.data b.data

/-- Stable insertion used by the model of Python `sorted`. -/
def insertLt (lt : α → α → Bool) (x : α) : List α → List α
  | [] => [x]
  | y :: ys => if lt y x then y :: insertLt lt x ys else x :: y :: ys

/-- Stable sort equal to Python `sorted` under a strict order `lt`. -/
def sortLt (lt : α → α → Bool) (l : List α) : List α :=
  l.foldr (insertLt lt) []

/-! ### Python dicts as insertion-ordered association lists -/

/-- First-match lookup (Python `d.get(k)` / `d[k]`). -/
def lookupA : List (String × α) → String → Option α
  | [], _ => none
  | (k, v) :: t, q => if k = q then some v else lookupA t q

/-- Python `d[k] = v`: replace in place, else append. -/
def updA : List (String × α) → String → α → List (String × α)
  | [], k, v => [(k, v)]
  | (k', v') :: t, k, v =>
    if k' = k then (k, v) :: t else (k', v') :: updA t k v

/-- Append `x` to the list stored at key `k` (Python `d[k].append(x)`). -/
def appendAtA : List (String × List α) → String → α → List (String × List α)
  | [], _, _ => []
  | (k', vs) :: t, k, x =>
    if k' = k then (k', vs ++ [x]) :: t else (k', vs) :: appendAtA t k x

/-- Add to a Python `set` modelled as a duplicate-free list. -/
def addSet (l : List String) (x : String) : List String :=
  if x ∈ l then l else l ++ [x]

/-! ### Data model (`Contact`, `Event`, dates) -/

/-- The `Contact` dataclass of the source. -/
structure Contact where
  name : String
  email : String
  phone : String
  linkedin : String
  answers : List (String × String)
  approval_status : String
  notes : String
  deriving DecidableEq, Repr

/-- `Contact.first_name`: `self.name.split(' ')[0] if self.name else ''`. -/
def Contact.firstName (c : Contact) : String :=
  if c.name ≠ "" then ((splitChS ' ' c.name).headD "") else ""

/-- `Contact.last_name`: `parts = self.name.split(' ', 1)`,
`parts[1] if len(parts) > 1 else ''`. -/
def Contact.lastName (c : Contact) : String :=
  if c.name.data.contains ' ' then afterCh ' ' c.name else ""

/-- A calendar date as produced by `datetime.strptime`. -/
structure Date where
  year : Nat
  month : Nat
  day : Nat
  deriving DecidableEq, Repr

def leapYear (y : Nat) : Bool := y % 4 == 0 && (y % 100 != 0 || y % 400 == 0)

def daysInMonth (y m : Nat) : Nat :=
  if m = 2 then (if leapYear y then 29 else 28)
  else if m = 4 ∨ m = 6 ∨ m = 9 ∨ m = 11 then 30 else 31

/-- `datetime` constructor validity (raises `ValueError` otherwise). -/
def validDate (y m d : Nat) : Bool :=
  1 ≤ y && y ≤ 9999 && 1 ≤ m && m ≤ 12 && 1 ≤ d && d ≤ daysInMonth y m

def pad2 (n : Nat) : String := if n < 10 then "0" ++ toString n else toString n

def pad4 (n : Nat) : String :=
  if n < 10 then "000" ++ toString n
  else if n < 100 then "00" ++ toString n
  else if n < 1000 then "0" ++ toString n
  else toString n

/-- `date.strftime('%Y-%m-%d')`. -/
def Date.iso (d : Date) : String := pad4 d.year ++ "-" ++ pad2 d.month ++ "-" ++ pad2 d.day

/-- `date.strftime('%m-%d-%Y')`. -/
def Date.mdY (d : Date) : String := pad2 d.month ++ "-" ++ pad2 d.day ++ "-" ++ pad4 d.year

/-- The `Event` dataclass of the source. -/
structure Event where
  name : String
  code : String
  date : Date
  questions : List String
  deriving DecidableEq, Repr

/-! ### Merge engine (`ContactProcessor._merge_contact_data`) -/

/-- The `is_valid_linkedin_url` closure inside `_merge_contact_data`. -/
def isValidLinkedinUrl (url : String) : Bool :=
  if url = "" then false
  else
    let u := lowerS url
    startsWithS "http" u && (inStr "linkedin.com" u || inStr "linked.in" u)

/-- First `EVENT:`-tagged line of the incoming contact's notes, with the
tag removed and the remainder stripped (the extraction loop inside
`_merge_contact_data`); empty when no line qualifies. -/
def extractEventInfo (notes : String) : String :=
  match (splitChS '\n' notes).find? (fun l => startsWithS "EVENT:" l) with
  | some l => pstrip (String.mk (l.data.drop 6))
  | none => ""

/-- `ContactProcessor._merge_contact_data(old, new, event_code)`. -/
def mergeContactData (old : Option Contact) (new : Contact)
    (event_code : String) : Contact :=
  match old with
  | some o =>
    { name := o.name, email := o.email, phone := o.phone,
      linkedin := o.linkedin, answers := o.answers,
      approval_status := o.approval_status,
      notes :=
        if new.notes ≠ "" then
          (if extractEventInfo new.notes ≠ "" ∧ ¬ (inStr event_code o.notes) then
            (if o.notes ≠ "" then
              o.notes ++ "-----EVENT: " ++ extractEventInfo new.notes
            else "EVENT: " ++ extractEventInfo new.notes)
          else o.notes)
        else o.notes }
  | none =>
    { name := new.name, email := new.email, phone := new.phone,
      linkedin := if isValidLinkedinUrl new.linkedin then new.linkedin else "",
      answers := new.answers, approval_status := new.approval_status,
      notes := new.notes }

/-! ### Identity resolution
(the merge loop of `ContactManager._update_master_from_snapshots`) -/

/-- One iteration of the snapshot merge loop: resolve `email` against the
master dict by exact lookup and merge or insert. -/
def mergeOneContact (master : List (String × Contact)) (email : String)
    (contact : Contact) (event_id : String) : List (String × Contact) :=
  if contact.approval_status = "approved" then
    match lookupA master email with
    | some old => updA master email (mergeContactData (some old) contact event_id)
    | none => updA master email contact
  else master

/-- The whole `for email, contact in snapshot_contacts.items()` loop. -/
def mergeSnapshotContacts (master : List (String × Contact))
    (snap : List (String × Contact)) (event_id : String) :
    List (String × Contact) :=
  snap.foldl (fun m p => mergeOneContact m p.1 p.2 event_id) master

/-- Keys of a dict, in insertion order. -/
def keysA (m : List (String × α)) : List String := m.map Prod.fst

/-! ### Association-list lemmas -/

theorem lookupA_updA_self (m : List (String × α)) (k : String) (v : α) :
    lookupA (updA m k v) k = some v := by
  induction m with
  | nil => simp [updA, lookupA]
  | cons p t ih =>
    obtain ⟨k', v'⟩ := p
    by_cases h : k' = k
    · simp [updA, lookupA, h]
    · simp [updA, lookupA, h, ih]

theorem lookupA_updA_ne (m : List (String × α)) (k k' : String) (v : α)
    (h : k' ≠ k) : lookupA (updA m k v) k' = lookupA m k' := by
  induction m with
  | nil => simp [updA, lookupA, Ne.symm h]
  | cons p t ih =>
    obtain ⟨k₀, v₀⟩ := p
    by_cases h₀ : k₀ = k
    · subst h₀
      simp [updA, lookupA, Ne.symm h]
    · simp only [updA, if_neg h₀, lookupA]
      by_cases h₁ : k₀ = k'
      · simp [h₁]
      · simp [h₁, ih]

theorem updA_of_lookupA_none (m : List (String × α)) (k : String) (v : α)
    (h : lookupA m k = none) : updA m k v = m ++ [(k, v)] := by
  induction m with
  | nil => simp [updA]
  | cons p t ih =>
    obtain ⟨k₀, v₀⟩ := p
    by_cases h₀ : k₀ = k
    · simp [lookupA, h₀] at h
    · simp only [lookupA, if_neg h₀] at h
      simp [updA, h₀, ih h]

theorem keysA_updA_of_lookupA_some (m : List (String × α)) (k : String)
    (v w : α) (h : lookupA m k = some w) : keysA (updA m k v) = keysA m := by
  induction m with
  | nil => simp [lookupA] at h
  | cons p t ih =>
    obtain ⟨k₀, v₀⟩ := p
    by_cases h₀ : k₀ = k
    · simp [updA, keysA, h₀]
    · simp only [lookupA, if_neg h₀] at h
      simp [updA, keysA, h₀] at ih ⊢
      exact ih h

/-! ### Claim C2 — phone merging -/

/-- C2 counterexample: the claim says that when the existing Identity's
phone is empty and the incoming phone is non-empty, the merged phone is
the incoming one.  In the code the merged phone is always the old phone,
so merging phone "" with incoming "+15551234567" yields "". -/
theorem phone_first_nonempty_counterexample :
    (mergeContactData (some ⟨"Ann B", "a@x.com", "", "", [], "approved", ""⟩)
        ⟨"Ann B", "a@x.com", "+15551234567", "", [], "approved", ""⟩
        "WY-2025-01-19").phone = "" ∧ ("" : String) ≠ "+15551234567" := by
  exact ⟨rfl, by decide⟩

/-- C2 amended: merging into an existing Identity always retains the
existing phone, even when it is empty and the incoming phone is not. -/
theorem merge_phone_keeps_old (old new : Contact) (ec : String) :
    (mergeContactData (some old) new ec).phone = old.phone := rfl

/-! ### Claim C10 — frame property of merging into an existing contact -/

/-- C10: merging an incoming contact into an existing one can change only
the notes field; name, email, phone, linkedin, approval status and
answers are exactly the existing contact's values. -/
theorem merge_frame_only_notes (old new : Contact) (ec : String) :
    (mergeContactData (some old) new ec).name = old.name ∧
    (mergeContactData (some old) new ec).email = old.email ∧
    (mergeContactData (some old) new ec).phone = old.phone ∧
    (mergeContactData (some old) new ec).linkedin = old.linkedin ∧
    (mergeContactData (some old) new ec).approval_status = old.approval_status ∧
    (mergeContactData (some old) new ec).answers = old.answers :=
  ⟨rfl, rfl, rfl, rfl, rfl, rfl⟩

/-! ### Claim C3 — idempotence of the merge -/

/-- C3 counterexample: idempotence fails when the appended event text does
not contain the event code.  With empty old notes, incoming notes
"EVENT: Summer Party" and event code "WY-2025-01-19", merging twice
appends the block twice. -/
theorem merge_idempotence_counterexample :
    mergeContactData
        (some (mergeContactData (some ⟨"Ann B", "a@x.com", "", "", [], "approved", ""⟩)
          ⟨"Ann B", "a@x.com", "", "", [], "approved", "EVENT: Summer Party"⟩
          "WY-2025-01-19"))
        ⟨"Ann B", "a@x.com", "", "", [], "approved", "EVENT: Summer Party"⟩
        "WY-2025-01-19" ≠
      mergeContactData (some ⟨"Ann B", "a@x.com", "", "", [], "approved", ""⟩)
        ⟨"Ann B", "a@x.com", "", "", [], "approved", "EVENT: Summer Party"⟩
        "WY-2025-01-19" := by decide

/-- C3 amended: merging the same (record, event) pair twice equals merging
it once provided the event code occurs as a substring of the once-merged
notes (in particular whenever the appended event block embeds its event
code), or the incoming record's notes carry no `EVENT:` line at all. -/
theorem merge_idempotent_of_code_in_notes (I R : Contact) (ec : String)
    (h : inStr ec (mergeContactData (some I) R ec).notes = true ∨
      extractEventInfo R.notes = "") :
    mergeContactData (some (mergeContactData (some I) R ec)) R ec =
      mergeContactData (some I) R ec := by
  have hstep : ∀ (M : Contact),
      (inStr ec M.notes = true ∨ extractEventInfo R.notes = "") →
      mergeContactData (some M) R ec = M := by
    intro M hM
    simp only [mergeContactData]
    by_cases hR : R.notes = ""
    · rw [if_neg (fun hc => hc hR)]
    · rw [if_pos hR]
      rcases hM with hM | hM
      · rw [if_neg (fun hc => hc.2 (by simp [hM]))]
      · rw [if_neg (fun hc => hc.1 hM)]
  exact hstep _ h

/-- Witness for the amended C3 at a concrete input whose event block
contains the event code. -/
theorem merge_idempotent_of_code_in_notes_witness :
    mergeContactData
        (some (mergeContactData (some ⟨"Ann B", "a@x.com", "", "", [], "approved", ""⟩)
          ⟨"Ann B", "a@x.com", "", "", [], "approved", "EVENT: WY-2025-01-19 (Wine Yard)"⟩
          "WY-2025-01-19"))
        ⟨"Ann B", "a@x.com", "", "", [], "approved", "EVENT: WY-2025-01-19 (Wine Yard)"⟩
        "WY-2025-01-19" =
      mergeContactData (some ⟨"Ann B", "a@x.com", "", "", [], "approved", ""⟩)
        ⟨"Ann B", "a@x.com", "", "", [], "approved", "EVENT: WY-2025-01-19 (Wine Yard)"⟩
        "WY-2025-01-19" :=
  merge_idempotent_of_code_in_notes _ _ _ (Or.inl (by decide))

/-! ### Claim C1 — no name-similarity fallback -/

/-- C1 counterexample: a record whose email matches no existing Identity
but whose name is character-for-character identical to an existing
Identity's name (similarity 100 on the 0-100 scale, above any relaxed
threshold) is not resolved to that Identity: the loop appends a fresh
entry and leaves the existing Identity untouched. -/
theorem name_fallback_counterexample :
    mergeOneContact
        [("ann@x.com", ⟨"John Smith", "ann@x.com", "+15551111111", "", [], "approved", ""⟩)]
        "js@y.com"
        ⟨"John Smith", "js@y.com", "+15552222222", "", [], "approved", ""⟩
        "WY-2025-01-19" =
      [("ann@x.com", ⟨"John Smith", "ann@x.com", "+15551111111", "", [], "approved", ""⟩),
       ("js@y.com", ⟨"John Smith", "js@y.com", "+15552222222", "", [], "approved", ""⟩)] := by
  decide

/-- C1 amended: resolution never falls back to name matching.  A record
whose email matches no existing Identity always becomes a new Identity,
appended unchanged, with every existing Identity left untouched —
regardless of any name similarity. -/
theorem email_miss_creates_new_identity (master : List (String × Contact))
    (email : String) (c : Contact) (eid : String)
    (h : lookupA master email = none)
    (ha : c.approval_status = "approved") :
    mergeOneContact master email c eid = master ++ [(email, c)] := by
  simp only [mergeOneContact, if_pos ha, h]
  exact updA_of_lookupA_none master email c h

/-- Witness for the amended C1. -/
theorem email_miss_creates_new_identity_witness :
    mergeOneContact
        [("ann@x.com", ⟨"John Smith", "ann@x.com", "", "", [], "approved", ""⟩)]
        "js@y.com" ⟨"Jon Smith", "js@y.com", "", "", [], "approved", ""⟩
        "WY-2025-01-19" =
      [("ann@x.com", ⟨"John Smith", "ann@x.com", "", "", [], "approved", ""⟩)] ++
        [("js@y.com", ⟨"Jon Smith", "js@y.com", "", "", [], "approved", ""⟩)] :=
  email_miss_creates_new_identity _ _ _ _ (by decide) (by decide)

/-! ### Claim C4 — exact email precedence -/

/-- C4: an incoming record with a non-empty email equal to an existing
Identity's key resolves to that Identity with no further checks: the
entry at that email is merged in place, no key is added or removed, and
all other entries are untouched.  Consequently two records sharing that
email (with arbitrary, possibly dissimilar names) land on the same
Identity. -/
theorem exact_email_resolves_to_same_identity
    (master : List (String × Contact)) (e : String) (c₁ c₂ old : Contact)
    (eid : String) (hne : e ≠ "") (h : lookupA master e = some old)
    (h₁ : c₁.approval_status = "approved")
    (h₂ : c₂.approval_status = "approved") :
    keysA (mergeOneContact (mergeOneContact master e c₁ eid) e c₂ eid) =
        keysA master ∧
    lookupA (mergeOneContact (mergeOneContact master e c₁ eid) e c₂ eid) e =
        some (mergeContactData (some (mergeContactData (some old) c₁ eid)) c₂ eid) ∧
    (∀ k, k ≠ e →
      lookupA (mergeOneContact (mergeOneContact master e c₁ eid) e c₂ eid) k =
        lookupA master k) := by
  have hm₁ : mergeOneContact master e c₁ eid =
      updA master e (mergeContactData (some old) c₁ eid) := by
    unfold mergeOneContact; rw [if_pos h₁, h]
  have hl₁ : lookupA (updA master e (mergeContactData (some old) c₁ eid)) e =
      some (mergeContactData (some old) c₁ eid) := lookupA_updA_self _ _ _
  have hm₂ : mergeOneContact (mergeOneContact master e c₁ eid) e c₂ eid =
      updA (updA master e (mergeContactData (some old) c₁ eid)) e
        (mergeContactData (some (mergeContactData (some old) c₁ eid)) c₂ eid) := by
    rw [hm₁]; unfold mergeOneContact; rw [if_pos h₂, hl₁]
  refine ⟨?_, ?_, ?_⟩
  · rw [hm₂, keysA_updA_of_lookupA_some _ _ _ _ hl₁]
    exact keysA_updA_of_lookupA_some _ _ _ _ h
  · rw [hm₂]; exact lookupA_updA_self _ _ _
  · intro k hk
    rw [hm₂, lookupA_updA_ne _ _ _ _ hk, lookupA_updA_ne _ _ _ _ hk]

/-- Witness for C4: two records sharing an email but with dissimilar
names resolve onto the one existing Identity. -/
theorem exact_email_resolves_to_same_identity_witness :
    keysA (mergeOneContact
        (mergeOneContact
          [("p@x.com", ⟨"Pat Q", "p@x.com", "", "", [], "approved", ""⟩)]
          "p@x.com" ⟨"Zelda W", "p@x.com", "", "", [], "approved", ""⟩ "E1")
        "p@x.com" ⟨"Totally Different", "p@x.com", "", "", [], "approved", ""⟩ "E1") =
      keysA [("p@x.com", (⟨"Pat Q", "p@x.com", "", "", [], "approved", ""⟩ : Contact))] :=
  (exact_email_resolves_to_same_identity
    [("p@x.com", ⟨"Pat Q", "p@x.com", "", "", [], "approved", ""⟩)]
    "p@x.com" ⟨"Zelda W", "p@x.com", "", "", [], "approved", ""⟩
    ⟨"Totally Different", "p@x.com", "", "", [], "approved", ""⟩
    ⟨"Pat Q", "p@x.com", "", "", [], "approved", ""⟩ "E1"
    (by decide) (by decide) (by decide) (by decide)).1

/-! ### Normalization (`ContactProcessor._process_row` and the
row loop of `ContactProcessor.process_csv`) -/

/-- Python `k.replace('﻿', '')` applied to CSV header keys. -/
def stripBOM (s : String) : String := String.mk (s.data.filter (· ≠ '﻿'))

/-- One assignment of the row-cleaning dict comprehension. -/
def cleanStep (m : List (String × String)) (kv : String × String) :
    List (String × String) :=
  if kv.2 ≠ "" then updA m (stripBOM kv.1) (pstrip kv.2) else m

/-- The dict comprehension
`{k.replace('﻿', ''): v.strip() for k, v in row.items() if v}`. -/
def cleanRow (row : List (String × String)) : List (String × String) :=
  row.foldl cleanStep []

/-- `cleaned_row.get('approval_status', 'pending').lower()`. -/
def rowStatus (row : List (String × String)) : String :=
  lowerS ((lookupA (cleanRow row) "approval_status").getD "pending")

/-- `ContactProcessor._process_row(row, ignore_fields)`. -/
def processRow (row : List (String × String)) (ignore : List String) : Contact :=
  if rowStatus row ≠ "approved" then
    { name := (lookupA (cleanRow row) "name").getD "",
      email := (lookupA (cleanRow row) "email").getD "",
      phone := (lookupA (cleanRow row) "phone_number").getD "",
      linkedin := "", answers := [], approval_status := rowStatus row,
      notes := "" }
  else
    { name := (lookupA (cleanRow row) "name").getD "",
      email := (lookupA (cleanRow row) "email").getD "",
      phone := (lookupA (cleanRow row) "phone_number").getD "",
      linkedin := (lookupA (cleanRow row) "What is your LinkedIn profile?").getD "",
      answers := (cleanRow row).filter (fun kv => kv.1 ∉ ignore ∧
        kv.1 ∉ (["name", "email", "phone_number", "approval_status"] : List String) ∧
        kv.2 ≠ ""),
      approval_status := "approved", notes := "" }

/-- One iteration of the row loop in `process_csv`: approved contacts are
collected for conversion, declined/pending ones for the archive file,
anything else is dropped. -/
def csvStep (ignore : List String) (acc : List Contact × List Contact)
    (row : List (String × String)) : List Contact × List Contact :=
  if (processRow row ignore).approval_status = "approved" then
    (acc.1 ++ [processRow row ignore], acc.2)
  else if (processRow row ignore).approval_status = "declined" ∨
      (processRow row ignore).approval_status = "pending" then
    (acc.1, acc.2 ++ [processRow row ignore])
  else acc

/-- The whole row loop of `process_csv`:
returns (approved contacts, declined/pending contacts). -/
def processCsvRows (rows : List (List (String × String)))
    (ignore : List String) : List Contact × List Contact :=
  rows.foldl (csvStep ignore) ([], [])

/-- One line of the `_declined.txt` archive file written by `process_csv`. -/
def declinedLine (c : Contact) : String :=
  (if c.name ≠ "" then c.name else "No Name") ++ ", " ++
  (if c.email ≠ "" then c.email else "No Email") ++ ", " ++
  (if c.phone ≠ "" then c.phone else "No Phone") ++ ", " ++
  upperS c.approval_status

/-- The archive file contents: one formatted line per declined contact. -/
def declinedFileLines (l : List Contact) : List String := l.map declinedLine

/-! ### Row-loop lemmas -/

theorem csvFold_fst_mono (ig : List String)
    (rows : List (List (String × String))) (acc : List Contact × List Contact)
    (c : Contact) (h : c ∈ acc.1) : c ∈ (rows.foldl (csvStep ig) acc).1 := by
  induction rows generalizing acc with
  | nil => exact h
  | cons r rs ih =>
    refine ih (csvStep ig acc r) ?_
    unfold csvStep
    split
    · exact List.mem_append_left _ h
    · split
      · exact h
      · exact h

theorem csvFold_snd_mono (ig : List String)
    (rows : List (List (String × String))) (acc : List Contact × List Contact)
    (c : Contact) (h : c ∈ acc.2) : c ∈ (rows.foldl (csvStep ig) acc).2 := by
  induction rows generalizing acc with
  | nil => exact h
  | cons r rs ih =>
    refine ih (csvStep ig acc r) ?_
    unfold csvStep
    split
    · exact h
    · split
      · exact List.mem_append_left _ h
      · exact h

theorem csvFold_fst_approved (ig : List String)
    (rows : List (List (String × String))) (acc : List Contact × List Contact)
    (hacc : ∀ c ∈ acc.1, c.approval_status = "approved") :
    ∀ c ∈ (rows.foldl (csvStep ig) acc).1, c.approval_status = "approved" := by
  induction rows generalizing acc with
  | nil => exact hacc
  | cons r rs ih =>
    refine ih (csvStep ig acc r) ?_
    intro c hc
    unfold csvStep at hc
    by_cases hap : (processRow r ig).approval_status = "approved"
    · rw [if_pos hap] at hc
      rcases List.mem_append.mp hc with hc | hc
      · exact hacc c hc
      · rw [List.mem_singleton.mp hc]; exact hap
    · rw [if_neg hap] at hc
      split at hc
      · exact hacc c hc
      · exact hacc c hc

theorem csvFold_declined_mem (ig : List String)
    (rows : List (List (String × String))) (acc : List Contact × List Contact)
    (row : List (String × String)) (hr : row ∈ rows)
    (hdp : (processRow row ig).approval_status = "declined" ∨
      (processRow row ig).approval_status = "pending") :
    processRow row ig ∈ (rows.foldl (csvStep ig) acc).2 := by
  induction rows generalizing acc with
  | nil => cases hr
  | cons r rs ih =>
    rcases List.mem_cons.mp hr with hr | hr
    · subst hr
      refine csvFold_snd_mono ig rs (csvStep ig acc row) _ ?_
      have hap : ¬ (processRow row ig).approval_status = "approved" := by
        rcases hdp with h | h <;> simp [h]
      unfold csvStep
      rw [if_neg hap, if_pos hdp]
      exact List.mem_append_right _ (List.mem_singleton.mpr rfl)
    · exact ih (csvStep ig acc r) hr

/-! ### Claim C6 — non-approved rows are minimal, excluded, archived -/

/-- C6: a row whose approval state is not `approved` normalizes to a
record carrying only name/email/phone/state (LinkedIn, answers and notes
cleared); declined and pending records go to the archive list, never to
the approved list fed into the Directory merge (which holds only
approved contacts); and the archive file lines have the shape
`name, email, phone, STATUS` with `No Name`/`No Email`/`No Phone`
placeholders. -/
theorem nonapproved_minimal_and_archived
    (rows : List (List (String × String))) (ig : List String) :
    (∀ c ∈ (processCsvRows rows ig).1, c.approval_status = "approved") ∧
    (∀ row, row ∈ rows →
      ((processRow row ig).approval_status ≠ "approved" →
        (processRow row ig).linkedin = "" ∧
        (processRow row ig).answers = [] ∧
        (processRow row ig).notes = "") ∧
      ((processRow row ig).approval_status = "declined" ∨
        (processRow row ig).approval_status = "pending" →
        processRow row ig ∈ (processCsvRows rows ig).2)) ∧
    declinedFileLines (processCsvRows rows ig).2 =
      ((processCsvRows rows ig).2).map (fun c =>
        (if c.name ≠ "" then c.name else "No Name") ++ ", " ++
        (if c.email ≠ "" then c.email else "No Email") ++ ", " ++
        (if c.phone ≠ "" then c.phone else "No Phone") ++ ", " ++
        upperS c.approval_status) := by
  refine ⟨csvFold_fst_approved ig rows ([], []) (by simp), ?_, rfl⟩
  intro row hr
  constructor
  · intro hnap
    unfold processRow at hnap ⊢
    by_cases hs : rowStatus row = "approved"
    · rw [if_neg (fun hn => hn hs)] at hnap
      exact absurd rfl hnap
    · rw [if_pos hs]
      exact ⟨rfl, rfl, rfl⟩
  · exact csvFold_declined_mem ig rows ([], []) row hr

/-- Witness for C6: a concrete declined row is archived, not merged. -/
theorem nonapproved_minimal_and_archived_witness :
    processRow [("approval_status", "declined"), ("name", "Ann B"),
        ("email", "a@x.com"), ("phone_number", "+15551234567")] [] ∈
      (processCsvRows [[("approval_status", "declined"), ("name", "Ann B"),
        ("email", "a@x.com"), ("phone_number", "+15551234567")]] []).2 :=
  ((nonapproved_minimal_and_archived
      [[("approval_status", "declined"), ("name", "Ann B"),
        ("email", "a@x.com"), ("phone_number", "+15551234567")]] []).2.1
    [("approval_status", "declined"), ("name", "Ann B"),
        ("email", "a@x.com"), ("phone_number", "+15551234567")]
    (by decide)).2 (Or.inl (by decide))

/-! ### Claim C7 — email/name normalization -/

theorem lookupA_cleanFold_not_mem (row : List (String × String))
    (m : List (String × String)) (q : String)
    (h : q ∉ row.map (fun p => stripBOM p.1)) :
    lookupA (row.foldl cleanStep m) q = lookupA m q := by
  induction row generalizing m with
  | nil => rfl
  | cons kv rest ih =>
    simp only [List.map_cons, List.mem_cons, not_or] at h
    rw [List.foldl_cons, ih (cleanStep m kv) h.2]
    unfold cleanStep
    split
    · exact lookupA_updA_ne _ _ _ _ h.1
    · rfl

theorem lookupA_cleanRow_of_mem (row : List (String × String))
    (k v : String) (hnd : (row.map (fun p => stripBOM p.1)).Nodup)
    (hm : (k, v) ∈ row) (hv : v ≠ "") :
    lookupA (cleanRow row) (stripBOM k) = some (pstrip v) := by
  suffices h : ∀ m : List (String × String),
      lookupA (row.foldl cleanStep m) (stripBOM k) = some (pstrip v) from h []
  intro m
  induction row generalizing m with
  | nil => cases hm
  | cons kv rest ih =>
    rw [List.map_cons, List.nodup_cons] at hnd
    rcases List.mem_cons.mp hm with hm' | hm'
    · subst hm'
      rw [List.foldl_cons, lookupA_cleanFold_not_mem rest _ _ hnd.1]
      unfold cleanStep
      rw [if_pos hv]
      exact lookupA_updA_self _ _ _
    · exact ih hnd.2 hm' (cleanStep m kv)

theorem splitCh_ne_nil (c : Char) (l : List Char) : splitCh c l ≠ [] := by
  cases l with
  | nil => simp [splitCh]
  | cons x xs =>
    unfold splitCh
    split
    · simp
    · split
      · simp
      · simp

theorem splitCh_headD (c : Char) (l : List Char) :
    (splitCh c l).headD [] = l.takeWhile (· ≠ c) := by
  induction l with
  | nil => rfl
  | cons x xs ih =>
    by_cases hx : x = c
    · rw [List.takeWhile_cons_of_neg (by simp [hx])]
      simp [splitCh, hx]
    · rw [List.takeWhile_cons_of_pos (by simp [hx])]
      simp only [splitCh, if_neg hx]
      rcases hs : splitCh c xs with _ | ⟨h, t⟩
      · exact absurd hs (splitCh_ne_nil c xs)
      · rw [hs] at ih
        simp only [List.headD_cons] at ih
        simp only [List.headD_cons]
        rw [ih]

/-- The first-name computation, characterized: text before the first
space character. -/
theorem firstName_eq_takeWhile (c : Contact) :
    c.firstName = String.mk (c.name.data.takeWhile (· ≠ ' ')) := by
  unfold Contact.firstName
  by_cases h : c.name = ""
  · rw [if_neg (by simp [h])]
    rw [h]; rfl
  · rw [if_pos h]
    unfold splitChS
    rcases hs : splitCh ' ' c.name.data with _ | ⟨hd, t⟩
    · exact absurd hs (splitCh_ne_nil ' ' c.name.data)
    · have := splitCh_headD ' ' c.name.data
      rw [hs] at this
      simp only [List.headD_cons] at this
      simp [this]

/-- C7 counterexample: the claim says the email is lower-cased and the
name split on the first whitespace run.  On the concrete row below the
code keeps the email's case verbatim, and the last name keeps the second
space of the run. -/
theorem email_lowercase_counterexample :
    (processRow [("approval_status", "approved"), ("name", "Ann  Lee"),
        ("email", "Bob@X.COM"), ("phone_number", "1")] []).email = "Bob@X.COM" ∧
    ("Bob@X.COM" : String) ≠ "bob@x.com" ∧
    (processRow [("approval_status", "approved"), ("name", "Ann  Lee"),
        ("email", "Bob@X.COM"), ("phone_number", "1")] []).lastName = " Lee" ∧
    (" Lee" : String) ≠ "Lee" := by decide

/-- C7 amended: normalization trims the email but does not change its
case, and trims the name and splits it at the first space character:
the first name is the text before the first space, the last name the
text after it (which keeps any further spaces of a whitespace run), and
a name without a space has an empty last name. -/
theorem normalization_trims_email_and_splits_name
    (row : List (String × String)) (ig : List String) (ev nv : String)
    (hnd : (row.map (fun p => stripBOM p.1)).Nodup)
    (he : ("email", ev) ∈ row) (hev : ev ≠ "")
    (hn : ("name", nv) ∈ row) (hnv : nv ≠ "") :
    (processRow row ig).email = pstrip ev ∧
    (processRow row ig).name = pstrip nv ∧
    (processRow row ig).firstName =
      String.mk ((pstrip nv).data.takeWhile (· ≠ ' ')) ∧
    (processRow row ig).lastName =
      (if (pstrip nv).data.contains ' ' then
        String.mk (((pstrip nv).data.dropWhile (· ≠ ' ')).drop 1)
      else "") := by
  have hle : lookupA (cleanRow row) "email" = some (pstrip ev) :=
    lookupA_cleanRow_of_mem row "email" ev hnd he hev
  have hln : lookupA (cleanRow row) "name" = some (pstrip nv) :=
    lookupA_cleanRow_of_mem row "name" nv hnd hn hnv
  have hEmail : (processRow row ig).email = pstrip ev := by
    unfold processRow
    split <;> simp [hle]
  have hName : (processRow row ig).name = pstrip nv := by
    unfold processRow
    split <;> simp [hln]
  refine ⟨hEmail, hName, ?_, ?_⟩
  · rw [firstName_eq_takeWhile, hName]
  · unfold Contact.lastName
    rw [hName]
    rfl

/-- Witness for the amended C7. -/
theorem normalization_trims_email_and_splits_name_witness :
    (processRow [("approval_status", "approved"), ("name", " Jo Ann Lee "),
        ("email", " A@B.co "), ("phone_number", "1")] []).email =
      pstrip " A@B.co " :=
  (normalization_trims_email_and_splits_name
    [("approval_status", "approved"), ("name", " Jo Ann Lee "),
        ("email", " A@B.co "), ("phone_number", "1")] []
    " A@B.co " " Jo Ann Lee "
    (by decide) (by decide) (by decide) (by decide) (by decide)).1

/-! ### Master VCF serialization (`ContactProcessor._save_master_vcf`) -/

/-- The lines written for one contact by `_save_master_vcf`
(the blank line models the `"END:VCARD\n\n"` double newline). -/
def vcfMasterLines (c : Contact) : List String :=
  ["BEGIN:VCARD", "VERSION:3.0",
   "N:" ++ (c.lastName ++ (";" ++ (c.firstName ++ ";;;"))),
   "FN:" ++ c.name,
   "EMAIL:" ++ c.email] ++
  (if c.phone ≠ "" then ["TEL:" ++ c.phone] else []) ++
  (if c.linkedin ≠ "" then ["URL;TYPE=WORK:" ++ c.linkedin] else []) ++
  (if c.notes ≠ "" then ["NOTE:" ++ c.notes] else []) ++
  ["END:VCARD", ""]

/-- File text of a list of lines, each terminated by a newline. -/
def linesText (ls : List String) : String :=
  String.mk ((ls.map (fun l => l.data ++ ['\n'])).flatten)

/-- `sorted(contacts.values(), key=lambda x: x.email)`. -/
def sortByEmail (d : List Contact) : List Contact :=
  sortLt (fun a b => strLt a.email b.email) d

/-- `_save_master_vcf`: every approved contact, sorted by email, one
VCF block each. -/
def saveMasterText (d : List Contact) : String :=
  linesText ((((sortByEmail d).filter
    (fun c => c.approval_status = "approved")).map vcfMasterLines).flatten)

/-! ### VCF parsing (`ContactProcessor._load_contacts_from_vcf`) -/

/-- Parser state: contacts emitted so far, the dict of the open card
(`None` outside a card), and whether an exception has been raised. -/
structure PSt where
  acc : List (String × Contact)
  cur : Option (List (String × String))
  err : Bool
  deriving DecidableEq, Repr

/-- `key.split(';')[0].lower()` of `key, value = line.split(':', 1)`. -/
def keyOfLine (line : String) : String :=
  lowerS (beforeCh ';' (beforeCh ':' line))

/-- The value part of a field line. -/
def valOfLine (line : String) : String := afterCh ':' line

/-- The contact built at `END:VCARD` from the card dict. -/
def cardContact (m : List (String × String)) : Contact :=
  { name :=
      (lookupA m "fn").getD
        (pstrip (((splitChS ';' ((lookupA m "n").getD ";;;;")).getD 1 "") ++ " " ++
          ((splitChS ';' ((lookupA m "n").getD ";;;;")).getD 0 ""))),
    email := (lookupA m "email").getD "",
    phone := (lookupA m "tel").getD "",
    linkedin := (lookupA m "url").getD "",
    answers := [], approval_status := "approved",
    notes := (lookupA m "note").getD "" }

/-- The `END:VCARD` handler: emit the contact when an email is present;
a card whose `N` value has no `;` raises `IndexError` (err flag). -/
def endCard (acc : List (String × Contact)) (m : List (String × String)) :
    PSt :=
  if lookupA m "email" = none then ⟨acc, none, false⟩
  else if (splitChS ';' ((lookupA m "n").getD ";;;;")).length < 2 then
    ⟨acc, some m, true⟩
  else ⟨updA acc ((lookupA m "email").getD "") (cardContact m), none, false⟩

/-- One line of the `_load_contacts_from_vcf` loop. -/
def pstep (st : PSt) (raw : String) : PSt :=
  if st.err then st
  else if startsWithS "BEGIN:VCARD" (pstrip raw) then ⟨st.acc, some [], false⟩
  else
    match st.cur with
    | none => st
    | some m =>
      if startsWithS "END:VCARD" (pstrip raw) ∧ m ≠ [] then endCard st.acc m
      else if (pstrip raw).data.contains ':' then
        ⟨st.acc, some (updA m (keyOfLine (pstrip raw)) (valOfLine (pstrip raw))),
          false⟩
      else st

/-- The result of the parse: the contacts dict, or empty after an
exception (the `except` clause returns `{}`). -/
def parseResult (st : PSt) : List (String × Contact) :=
  if st.err then [] else st.acc

/-- Parse a list of lines. -/
def parseLines (ls : List String) : List (String × Contact) :=
  parseResult (ls.foldl pstep ⟨[], none, false⟩)

/-- `_load_contacts_from_vcf` on the file text. -/
def loadVcf (text : String) : List (String × Contact) :=
  parseLines ((splitCh '\n' text.data).map String.mk)

/-! ### Strip-fixpoint lemmas -/

/-- A field value that survives the loader's `line.strip()` unchanged:
no leading/trailing whitespace and no newline or carriage return. -/
def cleanField (s : String) : Prop :=
  pstrip s = s ∧ ('\n' : Char) ∉ s.data ∧ ('\r' : Char) ∉ s.data

instance (s : String) : Decidable (cleanField s) := by
  unfold cleanField; infer_instance

theorem dropWhile_eq_self_of_headD (l : List Char)
    (h : isPySpace (l.headD 'x') = false) : l.dropWhile isPySpace = l := by
  cases l with
  | nil => rfl
  | cons a t =>
    simp only [List.headD_cons] at h
    rw [List.dropWhile_cons, if_neg (by simp [h])]

theorem pstripL_eq_self (l : List Char)
    (h1 : isPySpace (l.headD 'x') = false)
    (h2 : isPySpace (l.getLastD 'x') = false) : pstripL l = l := by
  unfold pstripL
  rw [dropWhile_eq_self_of_headD l h1]
  rw [dropWhile_eq_self_of_headD l.reverse
    (by rw [List.headD_eq_head?, List.head?_reverse, ← List.getLastD_eq_getLast?]
        exact h2)]
  exact List.reverse_reverse l

theorem pstripL_length_le_dropWhile (l : List Char) :
    (pstripL l).length ≤ (l.dropWhile isPySpace).length := by
  unfold pstripL
  rw [List.length_reverse]
  calc ((l.dropWhile isPySpace).reverse.dropWhile isPySpace).length
      ≤ (l.dropWhile isPySpace).reverse.length :=
        (List.dropWhile_suffix _).length_le
    _ = (l.dropWhile isPySpace).length := List.length_reverse _

theorem pstripL_length_le (l : List Char) : (pstripL l).length ≤ l.length :=
  (pstripL_length_le_dropWhile l).trans (List.dropWhile_suffix _).length_le

theorem data_pstrip (s : String) : (pstrip s).data = pstripL s.data := rfl

/-- A string fixed by `strip` does not start with whitespace. -/
theorem headD_not_space_of_pstrip (s : String) (h : pstrip s = s) :
    isPySpace (s.data.headD 'x') = false := by
  rcases hl : s.data with _ | ⟨a, t⟩
  · decide
  · by_contra hsp
    rw [Bool.not_eq_false] at hsp
    rw [List.headD_cons] at hsp
    have hlt : (pstripL s.data).length < s.data.length := by
      calc (pstripL s.data).length ≤ (s.data.dropWhile isPySpace).length :=
            pstripL_length_le_dropWhile s.data
        _ = (t.dropWhile isPySpace).length := by
            rw [hl, List.dropWhile_cons, if_pos (by simp [hsp])]
        _ ≤ t.length := (List.dropWhile_suffix _).length_le
        _ < s.data.length := by rw [hl]; simp
    have heq : (pstrip s).data = s.data := congrArg String.data h
    rw [data_pstrip] at heq
    rw [heq] at hlt
    exact lt_irrefl _ hlt

/-- A string fixed by `strip` does not end with whitespace. -/
theorem getLastD_not_space_of_pstrip (s : String) (h : pstrip s = s) :
    isPySpace (s.data.getLastD 'x') = false := by
  rcases hl : s.data.getLast? with _ | c
  · rw [List.getLastD_eq_getLast?, hl]; decide
  · by_contra hsp
    rw [Bool.not_eq_false, List.getLastD_eq_getLast?, hl] at hsp
    simp only [Option.getD_some] at hsp
    have hne : s.data ≠ [] := by
      intro h0; rw [h0] at hl; cases hl
    have hlt : (pstripL s.data).length < s.data.length := by
      rcases hd : s.data.dropWhile isPySpace with _ | ⟨b, u⟩
      · calc (pstripL s.data).length
            ≤ (s.data.dropWhile isPySpace).length :=
              pstripL_length_le_dropWhile s.data
          _ = 0 := by rw [hd]; rfl
          _ < s.data.length := by
              cases hsd : s.data with
              | nil => exact absurd hsd hne
              | cons x xs => simp
      · -- the suffix kept by dropWhile still ends with the whitespace char
        have hsuf : s.data.dropWhile isPySpace <:+ s.data :=
          List.dropWhile_suffix _
        obtain ⟨pre, hpre⟩ := hsuf
        have hlast : (s.data.dropWhile isPySpace).getLast? = some c := by
          have h2 : (pre ++ s.data.dropWhile isPySpace).getLast? =
              (s.data.dropWhile isPySpace).getLast? :=
            List.getLast?_append_of_ne_nil _ (by rw [hd]; simp)
          rw [hpre, hl] at h2
          exact h2.symm
        have hrev : (s.data.dropWhile isPySpace).reverse.head? = some c := by
          rw [List.head?_reverse]; exact hlast
        rcases hr : (s.data.dropWhile isPySpace).reverse with _ | ⟨r, rs⟩
        · rw [hr] at hrev; cases hrev
        · have hrc : r = c := by
            rw [hr] at hrev; simpa using hrev
          have : (pstripL s.data).length ≤ rs.length := by
            unfold pstripL
            rw [List.length_reverse, hr, List.dropWhile_cons,
              if_pos (by simp [hrc, hsp])]
            exact (List.dropWhile_suffix _).length_le
          calc (pstripL s.data).length ≤ rs.length := this
            _ < (s.data.dropWhile isPySpace).reverse.length := by
                rw [hr]; simp
            _ = (s.data.dropWhile isPySpace).length := List.length_reverse _
            _ ≤ s.data.length := (List.dropWhile_suffix _).length_le
    have heq : (pstrip s).data = s.data := congrArg String.data h
    rw [data_pstrip] at heq
    rw [heq] at hlt
    exact lt_irrefl _ hlt

theorem headD_append_left (l₁ l₂ : List Char) (d : Char) (h : l₁ ≠ []) :
    (l₁ ++ l₂).headD d = l₁.headD d := by
  cases l₁ with
  | nil => exact absurd rfl h
  | cons a t => rfl

theorem getLastD_append_right (l₁ l₂ : List Char) (d : Char) (h : l₂ ≠ []) :
    (l₁ ++ l₂).getLastD d = l₂.getLastD d := by
  rw [List.getLastD_eq_getLast?, List.getLastD_eq_getLast?,
    List.getLast?_append_of_ne_nil _ h]

theorem data_append (s t : String) : (s ++ t).data = s.data ++ t.data := rfl

/-- Strip fixpoint for a line `a ++ b` whose head comes from `a` and
whose last character is not whitespace. -/
theorem pstrip_append_eq_self (a b : String) (ha : a.data ≠ [])
    (hah : isPySpace (a.data.headD 'x') = false)
    (hbl : isPySpace ((a ++ b).data.getLastD 'x') = false) :
    pstrip (a ++ b) = a ++ b := by
  unfold pstrip
  rw [pstripL_eq_self]
  · have e1 : ((a ++ b).data).headD 'x' = a.data.headD 'x' :=
      headD_append_left a.data b.data 'x' ha
    rw [e1]; exact hah
  · exact hbl

theorem data_eq_nil_iff (s : String) : s.data = [] ↔ s = "" := by
  constructor
  · intro h
    cases s with
    | mk d => cases h; rfl
  · intro h; rw [h]

theorem append_empty_str (s : String) : s ++ "" = s := by
  cases s with
  | mk d => show String.mk (d ++ []) = String.mk d; rw [List.append_nil]

/-- Strip fixpoint for `K ++ f`: literal key `K`, clean field `f`. -/
theorem pstrip_key_append (K f : String) (hK : K.data ≠ [])
    (hKh : isPySpace (K.data.headD 'x') = false)
    (hKstrip : pstrip K = K) (hf : pstrip f = f) :
    pstrip (K ++ f) = K ++ f := by
  by_cases h0 : f = ""
  · rw [h0, append_empty_str]; exact hKstrip
  · refine pstrip_append_eq_self K f hK hKh ?_
    have e1 : ((K ++ f).data).getLastD 'x' = f.data.getLastD 'x' :=
      getLastD_append_right _ _ _ (fun hh => h0 ((data_eq_nil_iff f).mp hh))
    rw [e1]; exact getLastD_not_space_of_pstrip f hf

/-- Strip fixpoint for the `N:` line: it always ends in `;;;`. -/
theorem pstrip_n_line (ln fn : String) :
    pstrip ("N:" ++ (ln ++ (";" ++ (fn ++ ";;;")))) =
      "N:" ++ (ln ++ (";" ++ (fn ++ ";;;"))) := by
  have hre : "N:" ++ (ln ++ (";" ++ (fn ++ ";;;"))) =
      ("N:" ++ ln ++ ";" ++ fn) ++ ";;;" := by
    simp [String.append_assoc]
  rw [hre]
  refine pstrip_append_eq_self ("N:" ++ ln ++ ";" ++ fn) ";;;" ?_ ?_ ?_
  · have hd : ("N:" ++ ln ++ ";" ++ fn).data =
        'N' :: ':' :: (ln.data ++ (';' :: fn.data)) := by
      simp [data_append]
    rw [hd]; simp
  · have hd : ("N:" ++ ln ++ ";" ++ fn).data =
        'N' :: ':' :: (ln.data ++ (';' :: fn.data)) := by
      simp [data_append]
    rw [hd]; rfl
  · have e1 : ((("N:" ++ ln ++ ";" ++ fn) ++ ";;;").data).getLastD 'x' =
        ((";;;" : String).data).getLastD 'x' :=
      getLastD_append_right _ _ _ (by decide)
    rw [e1]; decide

/-! ### One `pstep` per generated line -/

theorem pstep_field (acc : List (String × Contact)) (m : List (String × String))
    (raw : String) (h0 : pstrip raw = raw)
    (h1 : startsWithS "BEGIN:VCARD" raw = false)
    (h2 : startsWithS "END:VCARD" raw = false)
    (h3 : raw.data.contains ':' = true) :
    pstep ⟨acc, some m, false⟩ raw =
      ⟨acc, some (updA m (keyOfLine raw) (valOfLine raw)), false⟩ := by
  unfold pstep
  rw [h0, h1, h2, h3]
  simp

theorem pstep_fn (acc : List (String × Contact)) (m : List (String × String))
    (s : String) (hs : pstrip s = s) :
    pstep ⟨acc, some m, false⟩ ("FN:" ++ s) =
      ⟨acc, some (updA m "fn" s), false⟩ := by
  rw [pstep_field acc m _ (pstrip_key_append "FN:" s (by decide) (by decide)
    (by decide) hs) rfl rfl rfl]
  rfl

theorem pstep_email (acc : List (String × Contact)) (m : List (String × String))
    (s : String) (hs : pstrip s = s) :
    pstep ⟨acc, some m, false⟩ ("EMAIL:" ++ s) =
      ⟨acc, some (updA m "email" s), false⟩ := by
  rw [pstep_field acc m _ (pstrip_key_append "EMAIL:" s (by decide) (by decide)
    (by decide) hs) rfl rfl rfl]
  rfl

theorem pstep_tel (acc : List (String × Contact)) (m : List (String × String))
    (s : String) (hs : pstrip s = s) :
    pstep ⟨acc, some m, false⟩ ("TEL:" ++ s) =
      ⟨acc, some (updA m "tel" s), false⟩ := by
  rw [pstep_field acc m _ (pstrip_key_append "TEL:" s (by decide) (by decide)
    (by decide) hs) rfl rfl rfl]
  rfl

theorem pstep_url (acc : List (String × Contact)) (m : List (String × String))
    (s : String) (hs : pstrip s = s) :
    pstep ⟨acc, some m, false⟩ ("URL;TYPE=WORK:" ++ s) =
      ⟨acc, some (updA m "url" s), false⟩ := by
  rw [pstep_field acc m _ (pstrip_key_append "URL;TYPE=WORK:" s (by decide)
    (by decide) (by decide) hs) rfl rfl rfl]
  rfl

theorem pstep_note (acc : List (String × Contact)) (m : List (String × String))
    (s : String) (hs : pstrip s = s) :
    pstep ⟨acc, some m, false⟩ ("NOTE:" ++ s) =
      ⟨acc, some (updA m "note" s), false⟩ := by
  rw [pstep_field acc m _ (pstrip_key_append "NOTE:" s (by decide) (by decide)
    (by decide) hs) rfl rfl rfl]
  rfl

theorem pstep_n (acc : List (String × Contact)) (m : List (String × String))
    (ln fn : String) :
    pstep ⟨acc, some m, false⟩ ("N:" ++ (ln ++ (";" ++ (fn ++ ";;;")))) =
      ⟨acc, some (updA m "n" (ln ++ (";" ++ (fn ++ ";;;")))), false⟩ := by
  rw [pstep_field acc m _ (pstrip_n_line ln fn) rfl rfl rfl]
  rfl

theorem pstep_begin (acc : List (String × Contact))
    (cur : Option (List (String × String))) :
    pstep ⟨acc, cur, false⟩ "BEGIN:VCARD" = ⟨acc, some [], false⟩ := rfl

theorem pstep_version (acc : List (String × Contact))
    (m : List (String × String)) :
    pstep ⟨acc, some m, false⟩ "VERSION:3.0" =
      ⟨acc, some (updA m "version" "3.0"), false⟩ := rfl

theorem pstep_blank (acc : List (String × Contact)) :
    pstep ⟨acc, none, false⟩ "" = ⟨acc, none, false⟩ := rfl

theorem updA_ne_nil (m : List (String × α)) (k : String) (v : α) :
    updA m k v ≠ [] := by
  cases m with
  | nil => simp [updA]
  | cons p t =>
    obtain ⟨k', v'⟩ := p
    unfold updA
    split <;> simp

theorem pstep_end_ne (acc : List (String × Contact))
    (m : List (String × String)) (hm : m ≠ []) :
    pstep ⟨acc, some m, false⟩ "END:VCARD" = endCard acc m := by
  have h1 : startsWithS "BEGIN:VCARD" (pstrip "END:VCARD") = false := rfl
  have h2 : startsWithS "END:VCARD" (pstrip "END:VCARD") = true := rfl
  unfold pstep
  rw [h1, h2]
  simp [hm]

theorem lookupA_ite_updA_ne (P : Prop) [Decidable P] (m : List (String × α))
    (k v : _) (q : String) (h : q ≠ k) :
    lookupA (if P then updA m k v else m) q = lookupA m q := by
  split
  · exact lookupA_updA_ne m k q v h
  · rfl

theorem lookupA_ite_updA_self (P : Prop) [Decidable P]
    (m : List (String × α)) (k : String) (v : α) :
    lookupA (if P then updA m k v else m) k =
      if P then some v else lookupA m k := by
  split
  · exact lookupA_updA_self m k v
  · rfl

theorem splitCh_length (c : Char) (l : List Char) :
    (splitCh c l).length = l.count c + 1 := by
  induction l with
  | nil => rfl
  | cons x xs ih =>
    by_cases hx : x = c
    · simp [splitCh, hx, List.count_cons, ih]
    · simp only [splitCh, if_neg hx]
      rcases hs : splitCh c xs with _ | ⟨h, t⟩
      · exact absurd hs (splitCh_ne_nil c xs)
      · rw [hs] at ih
        simp only [List.length_cons] at ih ⊢
        simp only [List.count_cons]
        simp [hx]
        omega

/-- The `N` value written by the serializer always has at least two
`;`-separated parts, so the loader's `parts[1]` never raises. -/
theorem nparts_not_lt (a b : String) :
    ¬ ((splitChS ';' (a ++ (";" ++ (b ++ ";;;")))).length < 2) := by
  unfold splitChS
  rw [List.length_map, splitCh_length]
  have hmem : (';' : Char) ∈ (a ++ (";" ++ (b ++ ";;;"))).data := by
    rw [data_append]
    exact List.mem_append_right _ (List.mem_cons_self _ _)
  have hc : 0 < (a ++ (";" ++ (b ++ ";;;"))).data.count ';' :=
    List.count_pos_iff.mpr hmem
  omega

/-- The contact the loader reconstructs from a serialized approved
contact: identical except that answers are not stored in the VCF. -/
def rebuiltContact (c : Contact) : Contact :=
  ⟨c.name, c.email, c.phone, c.linkedin, [], "approved", c.notes⟩

theorem fold_base (acc : List (String × Contact)) (c : Contact)
    (hn : pstrip c.name = c.name) (he : pstrip c.email = c.email) :
    List.foldl pstep ⟨acc, none, false⟩
      ["BEGIN:VCARD", "VERSION:3.0",
       "N:" ++ (c.lastName ++ (";" ++ (c.firstName ++ ";;;"))),
       "FN:" ++ c.name, "EMAIL:" ++ c.email] =
    ⟨acc, some [("version", "3.0"),
      ("n", c.lastName ++ (";" ++ (c.firstName ++ ";;;"))),
      ("fn", c.name), ("email", c.email)], false⟩ := by
  rw [List.foldl_cons, pstep_begin,
      List.foldl_cons, pstep_version,
      List.foldl_cons, pstep_n,
      List.foldl_cons, pstep_fn _ _ _ hn,
      List.foldl_cons, pstep_email _ _ _ he,
      List.foldl_nil]
  rfl

theorem fold_tel (acc : List (String × Contact)) (m : List (String × String))
    (c : Contact) (hp : pstrip c.phone = c.phone) :
    List.foldl pstep ⟨acc, some m, false⟩
      (if c.phone ≠ "" then ["TEL:" ++ c.phone] else []) =
    ⟨acc, some (if c.phone ≠ "" then updA m "tel" c.phone else m), false⟩ := by
  by_cases h0 : c.phone = ""
  · rw [if_neg (fun hh => hh h0), if_neg (fun hh => hh h0)]; rfl
  · rw [if_pos h0, if_pos h0, List.foldl_cons, pstep_tel _ _ _ hp,
      List.foldl_nil]

theorem fold_url (acc : List (String × Contact)) (m : List (String × String))
    (c : Contact) (hl : pstrip c.linkedin = c.linkedin) :
    List.foldl pstep ⟨acc, some m, false⟩
      (if c.linkedin ≠ "" then ["URL;TYPE=WORK:" ++ c.linkedin] else []) =
    ⟨acc, some (if c.linkedin ≠ "" then updA m "url" c.linkedin else m),
      false⟩ := by
  by_cases h0 : c.linkedin = ""
  · rw [if_neg (fun hh => hh h0), if_neg (fun hh => hh h0)]; rfl
  · rw [if_pos h0, if_pos h0, List.foldl_cons, pstep_url _ _ _ hl,
      List.foldl_nil]

theorem fold_note (acc : List (String × Contact)) (m : List (String × String))
    (c : Contact) (hno : pstrip c.notes = c.notes) :
    List.foldl pstep ⟨acc, some m, false⟩
      (if c.notes ≠ "" then ["NOTE:" ++ c.notes] else []) =
    ⟨acc, some (if c.notes ≠ "" then updA m "note" c.notes else m),
      false⟩ := by
  by_cases h0 : c.notes = ""
  · rw [if_neg (fun hh => hh h0), if_neg (fun hh => hh h0)]; rfl
  · rw [if_pos h0, if_pos h0, List.foldl_cons, pstep_note _ _ _ hno,
      List.foldl_nil]

/-- Folding the parser over one serialized contact block: the contact is
rebuilt and stored under its email. -/
theorem card_fold (acc : List (String × Contact)) (c : Contact)
    (hn : pstrip c.name = c.name) (he : pstrip c.email = c.email)
    (hp : pstrip c.phone = c.phone) (hl : pstrip c.linkedin = c.linkedin)
    (hno : pstrip c.notes = c.notes) :
    List.foldl pstep ⟨acc, none, false⟩ (vcfMasterLines c) =
      ⟨updA acc c.email (rebuiltContact c), none, false⟩ := by
  unfold vcfMasterLines
  rw [List.foldl_append, List.foldl_append, List.foldl_append,
    List.foldl_append, fold_base acc c hn he, fold_tel _ _ _ hp,
    fold_url _ _ _ hl, fold_note _ _ _ hno]
  -- the dict built by the field lines
  set B : List (String × String) :=
    [("version", "3.0"),
     ("n", c.lastName ++ (";" ++ (c.firstName ++ ";;;"))),
     ("fn", c.name), ("email", c.email)] with hB
  set m₁ : List (String × String) :=
    if c.phone ≠ "" then updA B "tel" c.phone else B with hm₁
  set m₂ : List (String × String) :=
    if c.linkedin ≠ "" then updA m₁ "url" c.linkedin else m₁ with hm₂
  set m₃ : List (String × String) :=
    if c.notes ≠ "" then updA m₂ "note" c.notes else m₂ with hm₃
  have hBne : B ≠ [] := by rw [hB]; simp
  have hm₁ne : m₁ ≠ [] := by
    rw [hm₁]; split
    · exact updA_ne_nil _ _ _
    · exact hBne
  have hm₂ne : m₂ ≠ [] := by
    rw [hm₂]; split
    · exact updA_ne_nil _ _ _
    · exact hm₁ne
  have hm₃ne : m₃ ≠ [] := by
    rw [hm₃]; split
    · exact updA_ne_nil _ _ _
    · exact hm₂ne
  have lt₁ : ∀ q, q ≠ "note" → q ≠ "url" →
      lookupA m₃ q = lookupA m₁ q := by
    intro q h1 h2
    rw [hm₃, lookupA_ite_updA_ne _ _ _ _ _ h1,
      hm₂, lookupA_ite_updA_ne _ _ _ _ _ h2]
  have l_email : lookupA m₃ "email" = some c.email := by
    rw [lt₁ "email" (by decide) (by decide),
      hm₁, lookupA_ite_updA_ne _ _ _ _ _ (by decide), hB]
    rfl
  have l_fn : lookupA m₃ "fn" = some c.name := by
    rw [lt₁ "fn" (by decide) (by decide),
      hm₁, lookupA_ite_updA_ne _ _ _ _ _ (by decide), hB]
    rfl
  have l_n : lookupA m₃ "n" =
      some (c.lastName ++ (";" ++ (c.firstName ++ ";;;"))) := by
    rw [lt₁ "n" (by decide) (by decide),
      hm₁, lookupA_ite_updA_ne _ _ _ _ _ (by decide), hB]
    rfl
  have l_telD : (lookupA m₃ "tel").getD "" = c.phone := by
    rw [lt₁ "tel" (by decide) (by decide), hm₁, lookupA_ite_updA_self]
    by_cases h0 : c.phone = ""
    · rw [if_neg (fun hh => hh h0), hB]
      rw [show lookupA
        [("version", "3.0"),
         ("n", c.lastName ++ (";" ++ (c.firstName ++ ";;;"))),
         ("fn", c.name), ("email", c.email)] "tel" = none from rfl]
      rw [h0]; rfl
    · rw [if_pos h0]; rfl
  have l_urlD : (lookupA m₃ "url").getD "" = c.linkedin := by
    rw [hm₃, lookupA_ite_updA_ne _ _ _ _ _ (by decide),
      hm₂, lookupA_ite_updA_self]
    by_cases h0 : c.linkedin = ""
    · rw [if_neg (fun hh => hh h0), hm₁,
        lookupA_ite_updA_ne _ _ _ _ _ (by decide), hB]
      rw [show lookupA
        [("version", "3.0"),
         ("n", c.lastName ++ (";" ++ (c.firstName ++ ";;;"))),
         ("fn", c.name), ("email", c.email)] "url" = none from rfl]
      rw [h0]; rfl
    · rw [if_pos h0]; rfl
  have l_noteD : (lookupA m₃ "note").getD "" = c.notes := by
    rw [hm₃, lookupA_ite_updA_self]
    by_cases h0 : c.notes = ""
    · rw [if_neg (fun hh => hh h0),
        hm₂, lookupA_ite_updA_ne _ _ _ _ _ (by decide),
        hm₁, lookupA_ite_updA_ne _ _ _ _ _ (by decide), hB]
      rw [show lookupA
        [("version", "3.0"),
         ("n", c.lastName ++ (";" ++ (c.firstName ++ ";;;"))),
         ("fn", c.name), ("email", c.email)] "note" = none from rfl]
      rw [h0]; rfl
    · rw [if_pos h0]; rfl
  have hend : endCard acc m₃ =
      ⟨updA acc c.email (rebuiltContact c), none, false⟩ := by
    unfold endCard
    rw [if_neg (by rw [l_email]; simp)]
    rw [l_n]
    rw [if_neg (by
      simp only [Option.getD_some]
      exact nparts_not_lt c.lastName c.firstName)]
    have hcc : cardContact m₃ = rebuiltContact c := by
      unfold cardContact rebuiltContact
      rw [l_fn, l_email, l_telD, l_urlD, l_noteD]
      rfl
    rw [hcc, l_email]
    rfl
  rw [List.foldl_cons, pstep_end_ne acc m₃ hm₃ne, hend,
    List.foldl_cons, pstep_blank, List.foldl_nil]

/-- Folding the parser over a list of serialized blocks builds the dict
of rebuilt contacts keyed by email. -/
theorem cards_fold (cs : List Contact) (acc : List (String × Contact))
    (h : ∀ c ∈ cs, pstrip c.name = c.name ∧ pstrip c.email = c.email ∧
      pstrip c.phone = c.phone ∧ pstrip c.linkedin = c.linkedin ∧
      pstrip c.notes = c.notes) :
    List.foldl pstep ⟨acc, none, false⟩ ((cs.map vcfMasterLines).flatten) =
      ⟨cs.foldl (fun a c => updA a c.email (rebuiltContact c)) acc, none,
        false⟩ := by
  induction cs generalizing acc with
  | nil => rfl
  | cons c cs ih =>
    rw [List.map_cons, List.flatten_cons, List.foldl_append]
    have hc := h c (List.mem_cons_self c cs)
    rw [card_fold acc c hc.1 hc.2.1 hc.2.2.1 hc.2.2.2.1 hc.2.2.2.2,
      List.foldl_cons]
    exact ih _ (fun c' hc' => h c' (List.mem_cons_of_mem _ hc'))

theorem splitCh_append_sep (sep : Char) (x y : List Char) (hx : sep ∉ x) :
    splitCh sep (x ++ sep :: y) = x :: splitCh sep y := by
  induction x with
  | nil => simp [splitCh]
  | cons a as ih =>
    rw [List.cons_append]
    have ha : a ≠ sep := fun h => hx (h ▸ List.mem_cons_self a as)
    simp only [splitCh, if_neg ha]
    rw [ih (fun hm => hx (List.mem_cons_of_mem _ hm))]

theorem splitCh_linesText (L : List String)
    (h : ∀ l ∈ L, ('\n' : Char) ∉ l.data) :
    splitCh '\n' ((L.map (fun l => l.data ++ ['\n'])).flatten) =
      (L.map String.data) ++ [[]] := by
  induction L with
  | nil => rfl
  | cons l ls ih =>
    rw [List.map_cons, List.flatten_cons, List.append_assoc,
      List.singleton_append,
      splitCh_append_sep '\n' l.data _ (h l (List.mem_cons_self l ls)),
      ih (fun l' hl' => h l' (List.mem_cons_of_mem _ hl')),
      List.map_cons, List.cons_append]

/-- Reading back a just-written line file: parse the lines plus the
final empty chunk after the last newline. -/
theorem loadVcf_linesText (L : List String)
    (h : ∀ l ∈ L, ('\n' : Char) ∉ l.data) :
    loadVcf (linesText L) = parseLines (L ++ [""]) := by
  unfold loadVcf linesText
  rw [show (String.mk ((L.map (fun l => l.data ++ ['\n'])).flatten)).data =
    (L.map (fun l => l.data ++ ['\n'])).flatten from rfl]
  rw [splitCh_linesText L h, List.map_append, List.map_map]
  rw [show (String.mk ∘ String.data) = id from funext (fun s => rfl),
    List.map_id]
  rfl

theorem insertLt_perm (lt : α → α → Bool) (x : α) (l : List α) :
    List.Perm (insertLt lt x l) (x :: l) := by
  induction l with
  | nil => exact List.Perm.refl _
  | cons y ys ih =>
    unfold insertLt
    split
    · exact (ih.cons y).trans (List.Perm.swap x y ys)
    · exact List.Perm.refl _

theorem sortLt_perm (lt : α → α → Bool) (l : List α) :
    List.Perm (sortLt lt l) l := by
  induction l with
  | nil => exact List.Perm.refl _
  | cons x xs ih =>
    unfold sortLt at ih ⊢
    rw [List.foldr_cons]
    exact (insertLt_perm lt x _).trans (ih.cons x)

theorem lookupA_build_not_mem (cs : List Contact)
    (acc : List (String × Contact)) (q : String)
    (h : q ∉ cs.map Contact.email) :
    lookupA (cs.foldl (fun a c => updA a c.email (rebuiltContact c)) acc) q =
      lookupA acc q := by
  induction cs generalizing acc with
  | nil => rfl
  | cons c cs ih =>
    simp only [List.map_cons, List.mem_cons, not_or] at h
    rw [List.foldl_cons, ih _ h.2, lookupA_updA_ne _ _ _ _ h.1]

theorem lookupA_build_of_mem (cs : List Contact)
    (acc : List (String × Contact)) (c : Contact)
    (hnd : (cs.map Contact.email).Nodup) (hm : c ∈ cs) :
    lookupA (cs.foldl (fun a c => updA a c.email (rebuiltContact c)) acc)
      c.email = some (rebuiltContact c) := by
  induction cs generalizing acc with
  | nil => cases hm
  | cons c₀ cs ih =>
    rw [List.map_cons, List.nodup_cons] at hnd
    rcases List.mem_cons.mp hm with hm' | hm'
    · subst hm'
      rw [List.foldl_cons, lookupA_build_not_mem cs _ _ hnd.1]
      exact lookupA_updA_self _ _ _
    · exact ih _ hnd.2 hm'

/-! ### Key-order independence of the parser -/

theorem lookupA_updA (m : List (String × α)) (k : String) (v : α)
    (q : String) :
    lookupA (updA m k v) q = if q = k then some v else lookupA m q := by
  by_cases h : q = k
  · subst h; rw [lookupA_updA_self, if_pos rfl]
  · rw [lookupA_updA_ne _ _ _ _ h, if_neg h]

/-- Two open-card dicts are interchangeable when every lookup agrees and
they are equally empty (Python truthiness). -/
def curEquiv : Option (List (String × String)) →
    Option (List (String × String)) → Prop
  | none, none => True
  | some m₁, some m₂ =>
    (∀ q, lookupA m₁ q = lookupA m₂ q) ∧ (m₁ = [] ↔ m₂ = [])
  | _, _ => False

/-- Parser states that cannot be told apart by the rest of the parse. -/
def stEquiv (s₁ s₂ : PSt) : Prop :=
  s₁.acc = s₂.acc ∧ s₁.err = s₂.err ∧ curEquiv s₁.cur s₂.cur

theorem stEquiv_refl (s : PSt) : stEquiv s s := by
  refine ⟨rfl, rfl, ?_⟩
  cases s.cur with
  | none => trivial
  | some m => exact ⟨fun q => rfl, Iff.rfl⟩

theorem cardContact_congr (m₁ m₂ : List (String × String))
    (hlook : ∀ q, lookupA m₁ q = lookupA m₂ q) :
    cardContact m₁ = cardContact m₂ := by
  unfold cardContact
  rw [hlook "fn", hlook "email", hlook "tel", hlook "url", hlook "note",
    hlook "n"]

theorem endCard_equiv (acc : List (String × Contact))
    (m₁ m₂ : List (String × String))
    (hlook : ∀ q, lookupA m₁ q = lookupA m₂ q) (hemp : m₁ = [] ↔ m₂ = []) :
    stEquiv (endCard acc m₁) (endCard acc m₂) := by
  have hcc := cardContact_congr m₁ m₂ hlook
  unfold endCard
  rw [hlook "email", hlook "n", hcc]
  split
  · exact stEquiv_refl _
  · split
    · exact ⟨rfl, rfl, hlook, hemp⟩
    · exact stEquiv_refl _

theorem pstep_eq_err (acc : List (String × Contact))
    (cur : Option (List (String × String))) (raw : String) :
    pstep ⟨acc, cur, true⟩ raw = ⟨acc, cur, true⟩ := rfl

theorem pstep_eq_none (acc : List (String × Contact)) (raw : String) :
    pstep ⟨acc, none, false⟩ raw =
      if startsWithS "BEGIN:VCARD" (pstrip raw) = true then ⟨acc, some [], false⟩
      else ⟨acc, none, false⟩ := rfl

theorem pstep_eq_some (acc : List (String × Contact))
    (m : List (String × String)) (raw : String) :
    pstep ⟨acc, some m, false⟩ raw =
      if startsWithS "BEGIN:VCARD" (pstrip raw) = true then ⟨acc, some [], false⟩
      else if startsWithS "END:VCARD" (pstrip raw) = true ∧ m ≠ [] then
        endCard acc m
      else if (pstrip raw).data.contains ':' = true then
        ⟨acc, some (updA m (keyOfLine (pstrip raw)) (valOfLine (pstrip raw))),
          false⟩
      else ⟨acc, some m, false⟩ := rfl

theorem pstep_equiv (s₁ s₂ : PSt) (h : stEquiv s₁ s₂) (raw : String) :
    stEquiv (pstep s₁ raw) (pstep s₂ raw) := by
  obtain ⟨acc₁, cur₁, err₁⟩ := s₁
  obtain ⟨acc₂, cur₂, err₂⟩ := s₂
  obtain ⟨hacc, herr, hcur⟩ := h
  simp only at hacc herr hcur
  subst hacc herr
  cases err₁ with
  | true => simp only [pstep_eq_err]; exact ⟨rfl, rfl, hcur⟩
  | false =>
    cases cur₁ with
    | none =>
      cases cur₂ with
      | some m₂ => exact absurd hcur (by simp [curEquiv])
      | none =>
        rw [pstep_eq_none]
        split
        · exact ⟨rfl, rfl, fun q => rfl, Iff.rfl⟩
        · exact ⟨rfl, rfl, trivial⟩
    | some m₁ =>
      cases cur₂ with
      | none => exact absurd hcur (by simp [curEquiv])
      | some m₂ =>
        obtain ⟨hlook, hemp⟩ := hcur
        rw [pstep_eq_some, pstep_eq_some]
        by_cases hb : startsWithS "BEGIN:VCARD" (pstrip raw) = true
        · rw [if_pos hb, if_pos hb]
          exact ⟨rfl, rfl, fun q => rfl, Iff.rfl⟩
        · rw [if_neg hb, if_neg hb]
          by_cases hE : startsWithS "END:VCARD" (pstrip raw) = true ∧ m₁ ≠ []
          · rw [if_pos hE, if_pos ⟨hE.1, fun hh => hE.2 (hemp.mpr hh)⟩]
            exact endCard_equiv acc₁ m₁ m₂ hlook hemp
          · have hE₂ : ¬ (startsWithS "END:VCARD" (pstrip raw) = true ∧
                m₂ ≠ []) := by
              intro hh
              exact hE ⟨hh.1, fun h0 => hh.2 (hemp.mp h0)⟩
            rw [if_neg hE, if_neg hE₂]
            split
            · refine ⟨rfl, rfl, ?_, ?_⟩
              · intro q
                rw [lookupA_updA, lookupA_updA, hlook q]
              · constructor <;>
                  (intro hh; exact absurd hh (updA_ne_nil _ _ _))
            · exact ⟨rfl, rfl, hlook, hemp⟩

theorem foldl_pstep_equiv (ls : List String) (s₁ s₂ : PSt)
    (h : stEquiv s₁ s₂) :
    stEquiv (ls.foldl pstep s₁) (ls.foldl pstep s₂) := by
  induction ls generalizing s₁ s₂ with
  | nil => exact h
  | cons l ls ih => exact ih _ _ (pstep_equiv s₁ s₂ h l)

theorem parseResult_eq_of_equiv (s₁ s₂ : PSt) (h : stEquiv s₁ s₂) :
    parseResult s₁ = parseResult s₂ := by
  unfold parseResult
  rw [h.2.1, h.1]

/-- Swapping two adjacent plain field lines with distinct keys leaves
the parser in an indistinguishable state. -/
theorem pstep_two_swap (st : PSt) (a b : String)
    (ha1 : startsWithS "BEGIN:VCARD" (pstrip a) = false)
    (ha2 : startsWithS "END:VCARD" (pstrip a) = false)
    (ha3 : (pstrip a).data.contains ':' = true)
    (hb1 : startsWithS "BEGIN:VCARD" (pstrip b) = false)
    (hb2 : startsWithS "END:VCARD" (pstrip b) = false)
    (hb3 : (pstrip b).data.contains ':' = true)
    (hk : keyOfLine (pstrip a) ≠ keyOfLine (pstrip b)) :
    stEquiv (pstep (pstep st a) b) (pstep (pstep st b) a) := by
  obtain ⟨acc, cur, err⟩ := st
  cases err with
  | true =>
    simp only [pstep_eq_err]
    exact stEquiv_refl _
  | false =>
    cases cur with
    | none =>
      have hfa : pstep ⟨acc, none, false⟩ a = ⟨acc, none, false⟩ := by
        rw [pstep_eq_none,
          if_neg (fun hh => Bool.noConfusion (hh.symm.trans ha1))]
      have hfb : pstep ⟨acc, none, false⟩ b = ⟨acc, none, false⟩ := by
        rw [pstep_eq_none,
          if_neg (fun hh => Bool.noConfusion (hh.symm.trans hb1))]
      simp only [hfa, hfb]
      exact stEquiv_refl _
    | some m =>
      have hfa : ∀ m' : List (String × String),
          pstep ⟨acc, some m', false⟩ a =
            ⟨acc, some (updA m' (keyOfLine (pstrip a)) (valOfLine (pstrip a))),
              false⟩ := by
        intro m'
        rw [pstep_eq_some,
          if_neg (fun hh => Bool.noConfusion (hh.symm.trans ha1)),
          if_neg (fun hh => Bool.noConfusion (hh.1.symm.trans ha2)),
          if_pos ha3]
      have hfb : ∀ m' : List (String × String),
          pstep ⟨acc, some m', false⟩ b =
            ⟨acc, some (updA m' (keyOfLine (pstrip b)) (valOfLine (pstrip b))),
              false⟩ := by
        intro m'
        rw [pstep_eq_some,
          if_neg (fun hh => Bool.noConfusion (hh.symm.trans hb1)),
          if_neg (fun hh => Bool.noConfusion (hh.1.symm.trans hb2)),
          if_pos hb3]
      simp only [hfa, hfb]
      refine ⟨rfl, rfl, ?_, ?_⟩
      · intro q
        rw [lookupA_updA, lookupA_updA, lookupA_updA, lookupA_updA]
        by_cases hqa : q = keyOfLine (pstrip a) <;>
          by_cases hqb : q = keyOfLine (pstrip b)
        · exact absurd (hqa.symm.trans hqb) hk
        · simp [hqa, hqb, hk, Ne.symm hk]
        · simp [hqa, hqb, hk, Ne.symm hk]
        · simp [hqa, hqb, hk, Ne.symm hk]
      · constructor <;> (intro hh; exact absurd hh (updA_ne_nil _ _ _))

theorem parseLines_swap (p q : List String) (a b : String)
    (ha1 : startsWithS "BEGIN:VCARD" (pstrip a) = false)
    (ha2 : startsWithS "END:VCARD" (pstrip a) = false)
    (ha3 : (pstrip a).data.contains ':' = true)
    (hb1 : startsWithS "BEGIN:VCARD" (pstrip b) = false)
    (hb2 : startsWithS "END:VCARD" (pstrip b) = false)
    (hb3 : (pstrip b).data.contains ':' = true)
    (hk : keyOfLine (pstrip a) ≠ keyOfLine (pstrip b)) :
    parseLines (p ++ a :: b :: q) = parseLines (p ++ b :: a :: q) := by
  unfold parseLines
  rw [List.foldl_append, List.foldl_append, List.foldl_cons, List.foldl_cons,
    List.foldl_cons, List.foldl_cons]
  apply parseResult_eq_of_equiv
  apply foldl_pstep_equiv
  exact pstep_two_swap _ a b ha1 ha2 ha3 hb1 hb2 hb3 hk

/-! ### Newline-freedom of generated lines -/

theorem no_nl_append (a b : String) (ha : ('\n' : Char) ∉ a.data)
    (hb : ('\n' : Char) ∉ b.data) : ('\n' : Char) ∉ (a ++ b).data := by
  rw [data_append]
  intro hm
  rcases List.mem_append.mp hm with h | h
  · exact ha h
  · exact hb h

theorem lastName_data_subset (c : Contact) :
    ∀ ch ∈ c.lastName.data, ch ∈ c.name.data := by
  intro ch hch
  unfold Contact.lastName at hch
  split at hch
  · unfold afterCh at hch
    exact ((List.drop_sublist 1 _).trans (List.dropWhile_sublist _)).subset hch
  · cases hch

theorem firstName_data_subset (c : Contact) :
    ∀ ch ∈ c.firstName.data, ch ∈ c.name.data := by
  intro ch hch
  rw [firstName_eq_takeWhile] at hch
  exact (List.takeWhile_sublist _).subset hch

theorem vcfMasterLines_no_nl (c : Contact)
    (hn : ('\n' : Char) ∉ c.name.data) (he : ('\n' : Char) ∉ c.email.data)
    (hp : ('\n' : Char) ∉ c.phone.data)
    (hl : ('\n' : Char) ∉ c.linkedin.data)
    (hno : ('\n' : Char) ∉ c.notes.data) :
    ∀ l ∈ vcfMasterLines c, ('\n' : Char) ∉ l.data := by
  have hln : ('\n' : Char) ∉ c.lastName.data :=
    fun hm => hn (lastName_data_subset c _ hm)
  have hfn : ('\n' : Char) ∉ c.firstName.data :=
    fun hm => hn (firstName_data_subset c _ hm)
  have hNline : ('\n' : Char) ∉
      ("N:" ++ (c.lastName ++ (";" ++ (c.firstName ++ ";;;")))).data :=
    no_nl_append _ _ (by decide)
      (no_nl_append _ _ hln (no_nl_append _ _ (by decide)
        (no_nl_append _ _ hfn (by decide))))
  intro l hlmem
  unfold vcfMasterLines at hlmem
  rcases List.mem_append.mp hlmem with h4 | h4
  rotate_left
  · rcases List.mem_cons.mp h4 with rfl | h
    · decide
    · rcases List.mem_cons.mp h with rfl | h
      · decide
      · cases h
  rcases List.mem_append.mp h4 with h3 | h3
  rotate_left
  · split at h3
    · rw [List.mem_singleton] at h3
      subst h3
      exact no_nl_append _ _ (by decide) hno
    · cases h3
  rcases List.mem_append.mp h3 with h2 | h2
  rotate_left
  · split at h2
    · rw [List.mem_singleton] at h2
      subst h2
      exact no_nl_append _ _ (by decide) hl
    · cases h2
  rcases List.mem_append.mp h2 with h1 | h1
  rotate_left
  · split at h1
    · rw [List.mem_singleton] at h1
      subst h1
      exact no_nl_append _ _ (by decide) hp
    · cases h1
  · rcases List.mem_cons.mp h1 with rfl | h
    · decide
    rcases List.mem_cons.mp h with rfl | h
    · decide
    rcases List.mem_cons.mp h with rfl | h
    · exact hNline
    rcases List.mem_cons.mp h with rfl | h
    · exact no_nl_append "FN:" c.name (by decide) hn
    rcases List.mem_cons.mp h with rfl | h
    · exact no_nl_append "EMAIL:" c.email (by decide) he
    · cases h

theorem parseResult_ok (acc : List (String × Contact))
    (cur : Option (List (String × String))) :
    parseResult ⟨acc, cur, false⟩ = acc := rfl

/-! ### Claim C5 — save/load round trip -/

/-- C5 counterexample: the claim quantifies over every Directory, but a
note text with a trailing space is changed by the reload, because the
loader strips each line.  (A field containing a newline is likewise
destroyed.) -/
theorem vcf_roundtrip_counterexample :
    lookupA (loadVcf (saveMasterText
        [⟨"Ann B", "a@x.com", "", "", [], "approved", "hi "⟩])) "a@x.com" =
      some ⟨"Ann B", "a@x.com", "", "", [], "approved", "hi"⟩ ∧
    ("hi" : String) ≠ "hi " := by decide

/-- C5 amended: (1) for every Directory of approved contacts with
distinct emails whose name/email/phone/LinkedIn/notes fields contain no
newline or carriage return and no leading or trailing whitespace,
serializing to the master VCF text and reloading reproduces each
contact's name, email, phone, LinkedIn URL and note text unchanged;
(2) the loader recovers the fields independent of the ordering of field
lines inside a block: swapping any two adjacent non-BEGIN/END field
lines with distinct keys leaves the parse unchanged (so any permutation
of distinct-key field lines does); and (3) TYPE parameters on TEL (and,
as exercised by the round trip itself, on URL) are tolerated: the
loader keys `TEL;TYPE=CELL:` lines under `tel` with the full value. -/
theorem vcf_roundtrip_and_key_order :
    (∀ (d : List Contact),
      (∀ c ∈ d, c.approval_status = "approved") →
      (d.map Contact.email).Nodup →
      (∀ c ∈ d, cleanField c.name ∧ cleanField c.email ∧
        cleanField c.phone ∧ cleanField c.linkedin ∧ cleanField c.notes) →
      ∀ c ∈ d, ∃ c',
        lookupA (loadVcf (saveMasterText d)) c.email = some c' ∧
        c'.name = c.name ∧ c'.email = c.email ∧ c'.phone = c.phone ∧
        c'.linkedin = c.linkedin ∧ c'.notes = c.notes) ∧
    (∀ (p q : List String) (a b : String),
      startsWithS "BEGIN:VCARD" (pstrip a) = false →
      startsWithS "END:VCARD" (pstrip a) = false →
      (pstrip a).data.contains ':' = true →
      startsWithS "BEGIN:VCARD" (pstrip b) = false →
      startsWithS "END:VCARD" (pstrip b) = false →
      (pstrip b).data.contains ':' = true →
      keyOfLine (pstrip a) ≠ keyOfLine (pstrip b) →
      parseLines (p ++ a :: b :: q) = parseLines (p ++ b :: a :: q)) ∧
    (∀ t : String, keyOfLine ("TEL;TYPE=CELL:" ++ t) = "tel" ∧
      valOfLine ("TEL;TYPE=CELL:" ++ t) = t) := by
  refine ⟨?_, parseLines_swap, fun t => ⟨rfl, rfl⟩⟩
  intro d hap hnd hwf c hc
  have hperm := sortLt_perm (fun a b => strLt a.email b.email) d
  have hmemS : ∀ x, x ∈ sortByEmail d ↔ x ∈ d := fun x => hperm.mem_iff
  have hfil : (sortByEmail d).filter
      (fun c => c.approval_status = "approved") = sortByEmail d := by
    apply List.filter_eq_self.mpr
    intro x hx
    simp [hap x ((hmemS x).mp hx)]
  have hnl : ∀ l ∈ ((sortByEmail d).map vcfMasterLines).flatten,
      ('\n' : Char) ∉ l.data := by
    intro l hlmem
    rw [List.mem_flatten] at hlmem
    obtain ⟨ls, hls, hlin⟩ := hlmem
    rw [List.mem_map] at hls
    obtain ⟨c', hc', rfl⟩ := hls
    have w := hwf c' ((hmemS c').mp hc')
    exact vcfMasterLines_no_nl c' w.1.2.1 w.2.1.2.1 w.2.2.1.2.1
      w.2.2.2.1.2.1 w.2.2.2.2.2.1 l hlin
  have hcs : ∀ c' ∈ sortByEmail d, pstrip c'.name = c'.name ∧
      pstrip c'.email = c'.email ∧ pstrip c'.phone = c'.phone ∧
      pstrip c'.linkedin = c'.linkedin ∧ pstrip c'.notes = c'.notes := by
    intro c' hc'
    have w := hwf c' ((hmemS c').mp hc')
    exact ⟨w.1.1, w.2.1.1, w.2.2.1.1, w.2.2.2.1.1, w.2.2.2.2.1⟩
  have hload : loadVcf (saveMasterText d) =
      (sortByEmail d).foldl
        (fun a c => updA a c.email (rebuiltContact c)) [] := by
    unfold saveMasterText
    rw [hfil, loadVcf_linesText _ hnl]
    unfold parseLines
    rw [List.foldl_append, cards_fold _ [] hcs, List.foldl_cons,
      pstep_blank, List.foldl_nil, parseResult_ok]
  refine ⟨rebuiltContact c, ?_, rfl, rfl, rfl, rfl, rfl⟩
  rw [hload]
  exact lookupA_build_of_mem _ [] c
    ((hperm.map Contact.email).nodup_iff.mpr hnd) ((hmemS c).mpr hc)

/-- Witness for the amended C5 on a one-contact Directory and on a
concrete adjacent swap of the EMAIL and N lines. -/
theorem vcf_roundtrip_and_key_order_witness :
    (∃ c', lookupA (loadVcf (saveMasterText
        [⟨"Ann B", "a@x.com", "+15551234567",
          "https://linkedin.com/in/ann", [], "approved",
          "EVENT: WY-2025-01-19 (Wine Yard)"⟩])) "a@x.com" = some c' ∧
      c'.name = "Ann B" ∧ c'.email = "a@x.com" ∧
      c'.phone = "+15551234567" ∧
      c'.linkedin = "https://linkedin.com/in/ann" ∧
      c'.notes = "EVENT: WY-2025-01-19 (Wine Yard)") ∧
    parseLines (["BEGIN:VCARD"] ++ "EMAIL:z@q" :: "N:a;b;;;" ::
        ["END:VCARD"]) =
      parseLines (["BEGIN:VCARD"] ++ "N:a;b;;;" :: "EMAIL:z@q" ::
        ["END:VCARD"]) :=
  ⟨vcf_roundtrip_and_key_order.1
      [⟨"Ann B", "a@x.com", "+15551234567",
        "https://linkedin.com/in/ann", [], "approved",
        "EVENT: WY-2025-01-19 (Wine Yard)"⟩]
      (by decide) (by decide) (by decide)
      ⟨"Ann B", "a@x.com", "+15551234567",
        "https://linkedin.com/in/ann", [], "approved",
        "EVENT: WY-2025-01-19 (Wine Yard)"⟩ (by decide),
   vcf_roundtrip_and_key_order.2.1 ["BEGIN:VCARD"] ["END:VCARD"]
      "EMAIL:z@q" "N:a;b;;;" (by decide) (by decide) (by decide)
      (by decide) (by decide) (by decide) (by decide)⟩

/-! ### Filename date extraction (`_extract_date`) and event
identification (`identify_event`) -/

/-- `os.path.splitext(...)[0]`: drop the last extension, except when all
characters before the final dot are dots. -/
def splitextBase (s : String) : String :=
  if ('.' : Char) ∈ s.data then
    (if ((((s.data.reverse).dropWhile (· ≠ '.')).drop 1).reverse).all
        (· = '.') then s
     else String.mk ((((s.data.reverse).dropWhile (· ≠ '.')).drop 1).reverse))
  else s

def monthNames : List (String × Nat) :=
  [("Jan", 1), ("Feb", 2), ("Mar", 3), ("Apr", 4), ("May", 5), ("Jun", 6),
   ("Jul", 7), ("Aug", 8), ("Sep", 9), ("Oct", 10), ("Nov", 11), ("Dec", 12)]

def digitVal (c : Char) : Nat := c.toNat - 48

def isDigitC (c : Char) : Bool := 48 ≤ c.toNat && c.toNat ≤ 57

/-- Match `(?:Jan|...|Dec)\s+\d{2}\s+\d{4}` at the head of `l`,
returning (month, day, year). -/
def matchMonthAt (l : List Char) : Option (Nat × Nat × Nat) :=
  monthNames.findSome? (fun p =>
    if isPrefixL p.1.data l then
      if (l.drop 3).takeWhile isPySpace ≠ [] then
        match (l.drop 3).dropWhile isPySpace with
        | d1 :: d2 :: r3 =>
          if isDigitC d1 && isDigitC d2 then
            if r3.takeWhile isPySpace ≠ [] then
              match r3.dropWhile isPySpace with
              | y1 :: y2 :: y3 :: y4 :: _ =>
                if isDigitC y1 && isDigitC y2 && isDigitC y3 && isDigitC y4 then
                  some (p.2, digitVal d1 * 10 + digitVal d2,
                    ((digitVal y1 * 10 + digitVal y2) * 10 + digitVal y3) * 10 +
                      digitVal y4)
                else none
              | _ => none
            else none
          else none
        | _ => none
      else none
    else none)

/-- Match `\d{2}-\d{2}-\d{4}` at the head of `l`,
returning (month, day, year). -/
def matchNumAt (l : List Char) : Option (Nat × Nat × Nat) :=
  match l with
  | a1 :: a2 :: a3 :: a4 :: a5 :: a6 :: a7 :: a8 :: a9 :: a10 :: _ =>
    if isDigitC a1 && isDigitC a2 && a3 == '-' && isDigitC a4 && isDigitC a5 &&
        a6 == '-' && isDigitC a7 && isDigitC a8 && isDigitC a9 &&
        isDigitC a10 then
      some (digitVal a1 * 10 + digitVal a2, digitVal a4 * 10 + digitVal a5,
        ((digitVal a7 * 10 + digitVal a8) * 10 + digitVal a9) * 10 +
          digitVal a10)
    else none
  | _ => none

/-- `re.search`: try the matcher at each position, leftmost first. -/
def scanPositions (f : List Char → Option α) : List Char → Option α
  | [] => f []
  | c :: cs =>
    match f (c :: cs) with
    | some r => some r
    | none => scanPositions f cs

/-- `datetime.strptime` calendar validation. -/
def mkValidDate (y m d : Nat) : Option Date :=
  if validDate y m d then some ⟨y, m, d⟩ else none

/-- `ContactProcessor._extract_date`: try the month-name pattern first;
an invalid date (ValueError) falls through to the numeric pattern. -/
def extractDate (filename : String) : Option Date :=
  match scanPositions matchMonthAt (splitextBase filename).data with
  | some (m, d, y) =>
    (match mkValidDate y m d with
     | some dt => some dt
     | none =>
       match scanPositions matchNumAt (splitextBase filename).data with
       | some (m2, d2, y2) => mkValidDate y2 m2 d2
       | none => none)
  | none =>
    match scanPositions matchNumAt (splitextBase filename).data with
    | some (m2, d2, y2) => mkValidDate y2 m2 d2
    | none => none

/-! ### Configuration (`question_config.yaml`, loaded at startup) -/

/-- One entry of `config['events']['types']`. -/
structure EventType where
  name : String
  identifiers : List String
  questions : List String
  deriving DecidableEq, Repr

/-- One entry of `config['notes']['sections']`. -/
structure NoteSection where
  name : String
  priority : Option Nat
  deriving DecidableEq, Repr

/-- One entry of `config['events']['questions']`. -/
structure Question where
  category : String
  note_prefix : String
  patterns : List String
  transform : Option (List (String × String))
  deriving DecidableEq, Repr

/-- The loaded configuration.  `eventFmt` stands for the config string
`notes.format.event_format` applied with `.format(code=…, date=…,
name=…)`; it is an opaque parameter because the YAML file is external
data. -/
structure Config where
  types : List (String × EventType)
  questionsCfg : List (String × Question)
  sections : List NoteSection
  eventFmt : String → String → String → String
  ignoreFields : List String
  vcfVersion : String

/-- `ContactProcessor.identify_event`. -/
def identifyEvent (cfg : Config) (filename : String) : Option Event :=
  match extractDate filename with
  | none => none
  | some date =>
    cfg.types.findSome? (fun p =>
      if p.2.identifiers.any (fun idf => inStr (lowerS idf) (lowerS filename))
      then some ⟨p.2.name, p.1, date, p.2.questions⟩
      else none)

/-! ### Note formatting (`_get_section_values`, `_format_notes`) -/

/-- The skip test `any(skip in field.lower() for skip in
['linkedin', 'url', 'profile'])`. -/
def skipField (field : String) : Bool :=
  inStr "linkedin" (lowerS field) || inStr "url" (lowerS field) ||
  inStr "profile" (lowerS field)

/-- The nested pattern/field loops with `found_match`: the first
(pattern, field) hit wins. -/
def findAnswer (pats : List String) (answers : List (String × String)) :
    Option String :=
  pats.findSome? (fun pat =>
    (answers.find? (fun fv =>
      !skipField fv.1 && inStr (lowerS pat) (lowerS fv.1))).map (·.2))

/-- `sections[cat].add(v)`; `none` models the `KeyError` when the
category is not a configured section. -/
def addToSection (secs : List (String × List String)) (cat : String)
    (v : String) : Option (List (String × List String)) :=
  match lookupA secs cat with
  | none => none
  | some vs => some (updA secs cat (if v ∈ vs then vs else vs ++ [v]))

/-- Processing of one question id inside `_get_section_values`. -/
def applyQuestion (cfg : Config) (answers : List (String × String))
    (secs : List (String × List String)) (qid : String) :
    Option (List (String × List String)) :=
  match lookupA cfg.questionsCfg qid with
  | none => some secs
  | some q =>
    if inStr "linkedin" (lowerS qid) then some secs
    else
      match findAnswer q.patterns answers with
      | none => some secs
      | some v =>
        if qid = "rsvp_role" then
          addToSection secs "PROFESSIONAL" ("ROLE: " ++ v)
        else
          match q.transform with
          | some tbl =>
            if inStr "," ((lookupA tbl v).getD v) then
              (splitChS ',' ((lookupA tbl v).getD v)).foldlM
                (fun s piece => addToSection s (upperS q.category)
                  (q.note_prefix ++ ": " ++ pstrip piece)) secs
            else
              addToSection secs (upperS q.category)
                (q.note_prefix ++ ": " ++ ((lookupA tbl v).getD v))
          | none =>
            if inStr "," v then
              (splitChS ',' v).foldlM
                (fun s piece => addToSection s (upperS q.category)
                  (q.note_prefix ++ ": " ++ pstrip piece)) secs
            else
              addToSection secs (upperS q.category)
                (q.note_prefix ++ ": " ++ v)

/-- `ContactProcessor._get_section_values`; an exception yields the
empty dict. -/
def getSectionValues (cfg : Config) (c : Contact) (ev : Option Event) :
    List (String × List String) :=
  if c.answers = [] ∨ ev.isNone then
    cfg.sections.map (fun (s : NoteSection) => (s.name, ([] : List String)))
  else
    match ev with
    | none =>
      cfg.sections.map (fun (s : NoteSection) => (s.name, ([] : List String)))
    | some e =>
      match (match lookupA cfg.types e.code with
             | some t => t.questions
             | none => []).foldlM (applyQuestion cfg c.answers)
          (cfg.sections.map
            (fun (s : NoteSection) => (s.name, ([] : List String)))) with
      | some secs => secs
      | none => []

/-- The existing-notes parsing loop of `_format_notes` (split on double
spaces, grouping lines under `EVENT:` headers). -/
def groupStep (st : List (String × List String) × Option String)
    (chunk : String) : List (String × List String) × Option String :=
  if startsWithS "EVENT:" (pstrip chunk) then
    (updA st.1 (pstrip chunk) [], some (pstrip chunk))
  else
    match st.2 with
    | some ev =>
      if pstrip chunk ≠ "" then (appendAtA st.1 ev (pstrip chunk), st.2)
      else st
    | none => st

def groupsOfNotes (notes : String) : List (String × List String) :=
  ((splitS "  " notes).foldl groupStep ([], none)).1

def sortStrs (l : List String) : List String := sortLt strLt l

/-- `sorted(config['notes']['sections'], key=priority or 99)`. -/
def sectionOrder (cfg : Config) : List NoteSection :=
  sortLt (fun a b => Nat.blt (a.priority.getD 99) (b.priority.getD 99))
    cfg.sections

/-- `ContactProcessor._format_notes`. -/
def formatNotes (cfg : Config) (c : Contact) (ev : Option Event) : String :=
  joinSep "          "
    ((match ev with
      | some e =>
        updA (if c.notes ≠ "" then groupsOfNotes c.notes else [])
          ("EVENT: " ++ cfg.eventFmt e.code e.date.iso e.name)
          ((match lookupA (getSectionValues cfg c (some e)) "PROFESSIONAL" with
            | some vs =>
              if vs ≠ [] then
                (if vs.filter (fun n => startsWithS "ROLE:" n) ≠ [] then
                  sortStrs (vs.filter (fun n => startsWithS "ROLE:" n))
                else [])
              else []
            | none => []) ++
           (sectionOrder cfg).foldl (fun acc (s : NoteSection) =>
             if s.name ≠ "PROFESSIONAL" then
               match lookupA (getSectionValues cfg c (some e)) s.name with
               | some vs => if vs ≠ [] then acc ++ sortStrs vs else acc
               | none => acc
             else acc) [])
      | none => if c.notes ≠ "" then groupsOfNotes c.notes else []).map
      (fun (g : String × List String) => joinSep "  " (g.1 :: g.2)))

/-! ### Snapshot serialization (`_format_vcf_entry`,
`_save_contacts_to_vcf`) -/

/-- The lines of `_format_vcf_entry` (no FN line, unconditional TEL). -/
def vcfSnapshotLines (cfg : Config) (c : Contact) (ev : Option Event) :
    List String :=
  ["BEGIN:VCARD", "VERSION:" ++ cfg.vcfVersion,
   "N:" ++ (c.lastName ++ (";" ++ (c.firstName ++ ";;;"))),
   "EMAIL:" ++ c.email,
   "TEL:" ++ c.phone] ++
  (if c.linkedin ≠ "" then ["URL;TYPE=WORK:" ++ c.linkedin] else []) ++
  (if formatNotes cfg c ev ≠ "" then ["NOTE:" ++ formatNotes cfg c ev]
   else []) ++
  ["END:VCARD"]

/-- `_save_contacts_to_vcf`: approved contacts only, in list order. -/
def saveSnapshotText (cfg : Config) (contacts : List Contact)
    (ev : Option Event) : String :=
  linesText (((contacts.filter
    (fun c => c.approval_status = "approved")).map
    (fun c => vcfSnapshotLines cfg c ev)).flatten)

/-! ### The manager state (`ContactManager`) -/

/-- Durable state of a `ContactManager` run: the snapshot directory
(filename to text), the master VCF file, the history ledger and the
archive outputs.  The master file is held apart from `files` because the
glob pattern `*_snapshot.vcf` never matches `master_contacts.vcf`. -/
structure MState where
  files : List (String × String)
  masterFile : Option String
  processedFiles : List String
  processedSnapshots : List String
  currentFile : Option String
  archives : List (String × List String)
  deriving Repr

/-- Modelled from the spec: the configured
`core.processing.snapshot_format` of the missing `question_config.yaml`.
The stem parsing in `_update_master_from_snapshots`
(`stem.split('_')[0]` = date, `[1]` = event code, glob
`*_snapshot.vcf`) forces the shape `date_eventcode_snapshot.vcf` with
the ISO date first. -/
def snapshotName (ev : Event) : String :=
  ev.date.iso ++ "_" ++ ev.code ++ "_snapshot.vcf"

/-- The archive file name
`f"{event.date.strftime('%m-%d-%Y')}{event.code}_declined.txt"`. -/
def archiveName (ev : Event) : String := ev.date.mdY ++ ev.code ++ "_declined.txt"

/-- `ContactManager._create_snapshot` (with `process_csv` inlined): the
declined archive is written by `process_csv` even when no approved
contact remains. -/
def createSnapshot (cfg : Config) (st : MState) (filename : String)
    (rows : List (List (String × String))) : MState × Option String :=
  match identifyEvent cfg filename with
  | none => (st, none)
  | some ev =>
    let res := processCsvRows rows cfg.ignoreFields
    let st1 := if res.2 ≠ [] then
        { st with
          archives := updA st.archives (archiveName ev)
            (declinedFileLines res.2) }
      else st
    if res.1 = [] then (st1, none)
    else
      ({ st1 with
          files := updA st1.files (snapshotName ev)
            (saveSnapshotText cfg res.1 (some ev)) },
        some (snapshotName ev))

/-- `Path(...).stem` of a snapshot filename. -/
def snapStem (nm : String) : String := splitextBase nm

/-- The order in which `_update_master_from_snapshots` merges new
snapshots: glob `*_snapshot.vcf` sorted, filtered by the processed set,
sorted again. -/
def newSnapshotOrder (st : MState) : List String :=
  sortLt strLt
    ((sortLt strLt ((st.files.map Prod.fst).filter
      (fun n => endsWithS "_snapshot.vcf" n))).filter
      (fun n => n ∉ st.processedSnapshots))

/-- One iteration of the snapshot loop: a stem without `_` raises and is
skipped (`continue`), otherwise the snapshot is loaded and merged. -/
def mergeSnapStep (st : MState) (acc : List (String × Contact) × List String)
    (nm : String) : List (String × Contact) × List String :=
  if (splitChS '_' (snapStem nm)).length < 2 then acc
  else
    (mergeSnapshotContacts acc.1
      (loadVcf ((lookupA st.files nm).getD ""))
      ((splitChS '_' (snapStem nm)).getD 1 "" ++ "-" ++
        (splitChS '_' (snapStem nm)).getD 0 ""),
     addSet acc.2 nm)

/-- `ContactManager._update_master_from_snapshots`. -/
def updateMasterFromSnapshots (st : MState) : MState :=
  if newSnapshotOrder st = [] then st
  else
    { st with
      masterFile := some (saveMasterText
        (((newSnapshotOrder st).foldl (mergeSnapStep st)
          ((match st.masterFile with
            | some t => loadVcf t
            | none => []), st.processedSnapshots)).1.map Prod.snd)),
      processedSnapshots :=
        ((newSnapshotOrder st).foldl (mergeSnapStep st)
          ((match st.masterFile with
            | some t => loadVcf t
            | none => []), st.processedSnapshots)).2 }

/-- `ContactManager._update_history`. -/
def updateHistory (st : MState) (filename snapPath : String) : MState :=
  { st with
    processedFiles :=
      if filename ∈ st.processedFiles then st.processedFiles
      else st.processedFiles ++ [filename],
    processedSnapshots :=
      if snapPath ∈ st.processedSnapshots then st.processedSnapshots
      else st.processedSnapshots ++ [snapPath] }

/-- `ContactManager.process_new_csv`. -/
def processNewCsv (cfg : Config) (st : MState) (filename : String)
    (rows : List (List (String × String))) : MState × Bool :=
  if filename ∈ st.processedFiles then (st, false)
  else
    match createSnapshot cfg { st with currentFile := some filename }
        filename rows with
    | (st2, none) => (st2, false)
    | (st2, some snapPath) =>
      (updateHistory (updateMasterFromSnapshots st2) filename snapPath, true)


/-! ### C8: duplicate-file reprocessing -/

/-- C8: for every input filename already recorded in the history
ledger's processed-files list, `process_new_csv` detects the duplicate
via the ledger before any mutation (the check precedes the
`current_file` update, the snapshot creation and the master merge) and
returns with the whole manager state unchanged: no snapshot is written,
no merge runs, the Directory is untouched.  The call reports `False`,
exactly as the source does (an early `return False`), without raising. -/
theorem duplicate_file_is_noop (cfg : Config) (st : MState)
    (filename : String) (rows : List (List (String × String)))
    (h : filename ∈ st.processedFiles) :
    processNewCsv cfg st filename rows = (st, false) := by
  unfold processNewCsv
  rw [if_pos h]

theorem duplicate_file_is_noop_witness :
    "a.csv" ∈ (⟨[], none, ["a.csv"], [], none, []⟩ : MState).processedFiles ∧
    processNewCsv ⟨[], [], [], fun c d n => (c ++ d) ++ n, [], "3.0"⟩
        ⟨[], none, ["a.csv"], [], none, []⟩ "a.csv" [] =
      (⟨[], none, ["a.csv"], [], none, []⟩, false) :=
  ⟨by decide,
   duplicate_file_is_noop ⟨[], [], [], fun c d n => (c ++ d) ++ n, [], "3.0"⟩
     ⟨[], none, ["a.csv"], [], none, []⟩ "a.csv" [] (by decide)⟩

/-! ### C9: merge order of snapshots -/

/-- Does the character list begin with an ISO date `YYYY-MM-DD`
(digits and hyphens at the positions the snapshot naming scheme puts
them)? -/
def isoPreB : List Char → Bool
  | y1 :: y2 :: y3 :: y4 :: h1 :: m1 :: m2 :: h2 :: d1 :: d2 :: _ =>
    isDigitC y1 && isDigitC y2 && isDigitC y3 && isDigitC y4 &&
    (h1.toNat == 45) && isDigitC m1 && isDigitC m2 && (h2.toNat == 45) &&
    isDigitC d1 && isDigitC d2
  | _ => false

def isoDatePre (s : String) : Bool := isoPreB s.data

/-- Numeric key `yyyy * 10000 + mm * 100 + dd` of an ISO date prefix. -/
def dateKeyL : List Char → Nat
  | y1 :: y2 :: y3 :: y4 :: _ :: m1 :: m2 :: _ :: d1 :: d2 :: _ =>
    (((digitVal y1 * 10 + digitVal y2) * 10 + digitVal y3) * 10 +
      digitVal y4) * 10000 +
    (digitVal m1 * 10 + digitVal m2) * 100 +
    (digitVal d1 * 10 + digitVal d2)
  | _ => 0

def dateKey (s : String) : Nat := dateKeyL s.data

theorem lexLt_asymm : ∀ la lb : List Char,
    lexLt la lb = true → lexLt lb la = false := by
  intro la
  induction la with
  | nil =>
    intro lb h
    cases lb with
    | nil => simp [lexLt] at h
    | cons b bs => simp [lexLt]
  | cons a as ih =>
    intro lb h
    cases lb with
    | nil => simp [lexLt] at h
    | cons b bs =>
      simp only [lexLt] at h ⊢
      split_ifs at h ⊢ <;>
        first
          | rfl
          | omega
          | exact ih bs h

theorem strLt_asymm (a b : String) (h : strLt a b = true) :
    strLt b a = false :=
  lexLt_asymm a.data b.data h

theorem chain'_insertLt (lt : α → α → Bool)
    (hasym : ∀ a b, lt a b = true → lt b a = false) (x : α) :
    ∀ l : List α, List.Chain' (fun a b => lt b a = false) l →
      List.Chain' (fun a b => lt b a = false) (insertLt lt x l) := by
  intro l
  induction l with
  | nil => intro _; simp [insertLt]
  | cons y ys ih =>
    intro hc
    rw [List.chain'_cons'] at hc
    unfold insertLt
    by_cases hyx : lt y x = true
    · rw [if_pos hyx, List.chain'_cons']
      constructor
      · intro z hz
        cases ys with
        | nil =>
          simp [insertLt] at hz
          subst hz
          exact hasym y x hyx
        | cons w ws =>
          unfold insertLt at hz
          by_cases hwx : lt w x = true
          · rw [if_pos hwx] at hz
            simp at hz
            subst hz
            exact hc.1 w (by simp)
          · rw [if_neg hwx] at hz
            simp at hz
            subst hz
            exact hasym y x hyx
      · exact ih hc.2
    · rw [if_neg hyx, List.chain'_cons]
      refine ⟨?_, List.chain'_cons'.mpr hc⟩
      cases hb : lt y x with
      | false => rfl
      | true => exact absurd hb hyx

theorem chain'_sortLt (lt : α → α → Bool)
    (hasym : ∀ a b, lt a b = true → lt b a = false) :
    ∀ l : List α, List.Chain' (fun a b => lt b a = false) (sortLt lt l) := by
  intro l
  induction l with
  | nil => simp [sortLt]
  | cons x t ih => exact chain'_insertLt lt hasym x _ ih

theorem chain'_mono_mem {R S : α → α → Prop} :
    ∀ l : List α, List.Chain' R l →
      (∀ a ∈ l, ∀ b ∈ l, R a b → S a b) → List.Chain' S l := by
  intro l
  induction l with
  | nil => intro _ _; exact List.chain'_nil
  | cons x t ih =>
    intro hc hm
    rw [List.chain'_cons'] at hc ⊢
    refine ⟨?_, ih hc.2 ?_⟩
    · intro z hz
      exact hm x (by simp) z
        (List.mem_cons_of_mem x (List.mem_of_mem_head? hz)) (hc.1 z hz)
    · intro a ha b hb hr
      exact hm a (List.mem_cons_of_mem x ha) b (List.mem_cons_of_mem x hb) hr

/-- Decompose one comparison step of `lexLt` returning `false`. -/
theorem lexLt_cons_false (a b : Char) (as bs : List Char)
    (h : lexLt (b :: bs) (a :: as) = false) :
    a.toNat ≤ b.toNat ∧ (a.toNat < b.toNat ∨ lexLt bs as = false) := by
  simp only [lexLt] at h
  by_cases h1 : b.toNat < a.toNat
  · rw [if_pos h1] at h
    exact Bool.noConfusion h
  · rw [if_neg h1] at h
    by_cases h2 : a.toNat < b.toNat
    · exact ⟨Nat.le_of_lt h2, Or.inl h2⟩
    · rw [if_neg h2] at h
      exact ⟨by omega, Or.inr h⟩

/-- String (code-point) order agrees with date order on ISO-date
prefixed names. -/
theorem iso_lex_le_dateKeyL (la lb : List Char) (ha : isoPreB la = true)
    (hb : isoPreB lb = true) (h : lexLt lb la = false) :
    dateKeyL la ≤ dateKeyL lb := by
  rcases la with _ | ⟨a1, _ | ⟨a2, _ | ⟨a3, _ | ⟨a4, _ | ⟨a5, _ | ⟨a6,
    _ | ⟨a7, _ | ⟨a8, _ | ⟨a9, _ | ⟨a10, ta⟩⟩⟩⟩⟩⟩⟩⟩⟩⟩ <;>
    simp only [isoPreB, isDigitC, Bool.and_eq_true, Bool.false_eq_true,
      decide_eq_true_eq, beq_iff_eq] at ha
  rcases lb with _ | ⟨b1, _ | ⟨b2, _ | ⟨b3, _ | ⟨b4, _ | ⟨b5, _ | ⟨b6,
    _ | ⟨b7, _ | ⟨b8, _ | ⟨b9, _ | ⟨b10, tb⟩⟩⟩⟩⟩⟩⟩⟩⟩⟩ <;>
    simp only [isoPreB, isDigitC, Bool.and_eq_true, Bool.false_eq_true,
      decide_eq_true_eq, beq_iff_eq] at hb
  obtain ⟨⟨⟨⟨⟨⟨⟨⟨⟨ha1, ha2⟩, ha3⟩, ha4⟩, ha5⟩, ha6⟩, ha7⟩, ha8⟩, ha9⟩,
    ha10⟩ := ha
  obtain ⟨⟨⟨⟨⟨⟨⟨⟨⟨hb1, hb2⟩, hb3⟩, hb4⟩, hb5⟩, hb6⟩, hb7⟩, hb8⟩, hb9⟩,
    hb10⟩ := hb
  simp only [dateKeyL, digitVal]
  obtain ⟨le1, h1 | h⟩ := lexLt_cons_false a1 b1 _ _ h
  · omega
  obtain ⟨le2, h2 | h⟩ := lexLt_cons_false a2 b2 _ _ h
  · omega
  obtain ⟨le3, h3 | h⟩ := lexLt_cons_false a3 b3 _ _ h
  · omega
  obtain ⟨le4, h4 | h⟩ := lexLt_cons_false a4 b4 _ _ h
  · omega
  obtain ⟨le5, h5 | h⟩ := lexLt_cons_false a5 b5 _ _ h
  · omega
  obtain ⟨le6, h6 | h⟩ := lexLt_cons_false a6 b6 _ _ h
  · omega
  obtain ⟨le7, h7 | h⟩ := lexLt_cons_false a7 b7 _ _ h
  · omega
  obtain ⟨le8, h8 | h⟩ := lexLt_cons_false a8 b8 _ _ h
  · omega
  obtain ⟨le9, h9 | h⟩ := lexLt_cons_false a9 b9 _ _ h
  · omega
  obtain ⟨le10, h10 | h⟩ := lexLt_cons_false a10 b10 _ _ h
  · omega
  omega

theorem iso_lex_le_dateKey (a b : String) (ha : isoDatePre a = true)
    (hb : isoDatePre b = true) (h : strLt b a = false) :
    dateKey a ≤ dateKey b :=
  iso_lex_le_dateKeyL a.data b.data ha hb h

/-- C9 amended, within-pass half: `_update_master_from_snapshots`
merges the new snapshots in the order `newSnapshotOrder st` (second
conjunct, the fold the master file is built from), and that order is
ascending by filename string comparison, which is ascending by event
date whenever the pending snapshot names carry the ISO `YYYY-MM-DD`
date first, as the configured snapshot naming scheme produces
(hypothesis).  The cross-invocation half of the original claim is
false (see the counterexample): nothing reorders work between
`process_new_csv` invocations. -/
theorem snapshots_merge_in_date_order_per_pass (st : MState)
    (h : ∀ nm ∈ newSnapshotOrder st, isoDatePre nm = true) :
    List.Chain' (fun a b => dateKey a ≤ dateKey b) (newSnapshotOrder st) ∧
    (newSnapshotOrder st ≠ [] →
      (updateMasterFromSnapshots st).masterFile =
        some (saveMasterText
          (((newSnapshotOrder st).foldl (mergeSnapStep st)
            ((match st.masterFile with
              | some t => loadVcf t
              | none => []), st.processedSnapshots)).1.map Prod.snd))) := by
  constructor
  · have hch : List.Chain' (fun a b => strLt b a = false)
        (newSnapshotOrder st) :=
      chain'_sortLt strLt strLt_asymm _
    exact chain'_mono_mem _ hch
      (fun a ha b hb hr => iso_lex_le_dateKey a b (h a ha) (h b hb) hr)
  · intro hne
    unfold updateMasterFromSnapshots
    rw [if_neg hne]

theorem snapshots_merge_in_date_order_per_pass_witness :
    (∀ nm ∈ newSnapshotOrder
        ⟨[("2025-02-01_WY_snapshot.vcf", ""),
          ("2025-01-01_WY_snapshot.vcf", "")], none, [], [], none, []⟩,
      isoDatePre nm = true) ∧
    List.Chain' (fun a b => dateKey a ≤ dateKey b)
      (newSnapshotOrder
        ⟨[("2025-02-01_WY_snapshot.vcf", ""),
          ("2025-01-01_WY_snapshot.vcf", "")], none, [], [], none, []⟩) :=
  ⟨by decide,
   (snapshots_merge_in_date_order_per_pass
     ⟨[("2025-02-01_WY_snapshot.vcf", ""),
       ("2025-01-01_WY_snapshot.vcf", "")], none, [], [], none, []⟩
     (by decide)).1⟩

/-- A concrete configuration for the counterexample: one event type,
identifier `wine yard`, and the event format
`{code}-{date} ({name})`. -/
def wineCfg : Config :=
  ⟨[("WY", ⟨"Wine Yard", ["wine yard"], []⟩)], [], [],
   fun code date name => code ++ "-" ++ date ++ " (" ++ name ++ ")", [],
   "3.0"⟩

def wineRows : List (List (String × String)) :=
  [[("approval_status", "approved"), ("name", "John Smith"),
    ("email", "john@x.com"), ("phone_number", "+15551234567")]]

/-- Manager state after processing the February file. -/
def wineState1 : MState :=
  (processNewCsv wineCfg ⟨[], none, [], [], none, []⟩
    "Wine Yard Guests 02-01-2025.csv" wineRows).1

/-- Manager state after then processing the January file. -/
def wineState2 : MState :=
  (processNewCsv wineCfg wineState1
    "Wine Yard Guests 01-01-2025.csv" wineRows).1

/-- C9 counterexample: the claim quantifies over every set of per-event
input files and demands merges strictly in ascending event date
regardless of the order the files are supplied.  Supplying the
February file in one `process_new_csv` invocation and the January file
in the next (the driver processes each file as it arrives; nothing
defers or reorders across invocations), the January event is merged
second: the final master notes carry the February event block before
the January one, so the merge order was 2025-02-01 then 2025-01-01,
not ascending. -/
theorem chronological_merge_counterexample :
    extractDate "Wine Yard Guests 01-01-2025.csv" = some ⟨2025, 1, 1⟩ ∧
    extractDate "Wine Yard Guests 02-01-2025.csv" = some ⟨2025, 2, 1⟩ ∧
    (lookupA (loadVcf (wineState2.masterFile.getD ""))
        "john@x.com").map (fun c => c.notes) =
      some "EVENT: WY-2025-02-01 (Wine Yard)-----EVENT: WY-2025-01-01 (Wine Yard)" :=
  ⟨rfl, rfl, rfl⟩


end LumaVcf

